import Mathlib

/-!
# yang-to-ntriples: the gNMI counters to N-Triples converter

Shallow embedding of `cmd/triples/main.go`.

* A Go `string` is its sequence of bytes (`GoString`).
* A Go `int` is an `Int`; `strings.Index` answers `-1` for "not found", as in Go.
* A nilable pointer is an `Option`.
* A call that may stop with a run-time panic (a slice expression out of range) returns an
  `Option` (for a pure function) or a `Completion` (for a procedure): `none` / `panicked`
  is the panic.
* Standard output and standard error are the sequences of writes made to them (`World`).
* The JSON codec of the standard library and the generated `oc.Unmarshal` are parameters
  (`Codec`); the value type `V` stands for the decoded `interface{}` values.
-/

namespace Triples

/-! ## Strings -/

/-- A Go string: a sequence of bytes. -/
abbrev GoString := List UInt8

/-- The bytes (UTF-8) of a string literal of the source. -/
def lit (s : String) : GoString := s.toUTF8.data.toList

/-- First position at which `substr` occurs in the string, if any. -/
def indexAux (substr : GoString) : GoString → Option Nat
  | [] => if substr.isEmpty then some 0 else none
  | c :: cs =>
    if substr.isPrefixOf (c :: cs) then some 0
    else (indexAux substr cs).map (· + 1)

/-- Go `strings.Index(s, substr)`: the index of the first instance of `substr` in `s`,
or `-1` if `substr` is not present in `s`. -/
def Index (s substr : GoString) : Int :=
  match indexAux substr s with
  | some i => (i : Int)
  | none => -1

/-- Go `strings.Contains(s, substr)`, which is `Index(s, substr) >= 0`. -/
def Contains (s substr : GoString) : Bool :=
  decide (Index s substr ≥ 0)

/-- Go `len(s)`. -/
def len (s : GoString) : Int := (s.length : Int)

/-- Go slice expression `s[i:]`; `none` is the run-time panic "slice bounds out of range". -/
def sliceFrom (s : GoString) (i : Int) : Option GoString :=
  if 0 ≤ i ∧ i ≤ len s then some (s.drop i.toNat) else none

/-- Go slice expression `s[i:j]`; `none` is the run-time panic "slice bounds out of range". -/
def slice (s : GoString) (i j : Int) : Option GoString :=
  if 0 ≤ i ∧ i ≤ j ∧ j ≤ len s then some ((s.take j.toNat).drop i.toNat) else none

/-! ## Formatting -/

/-- The digit loop of Go's unsigned decimal formatting: while `u >= 10` the last digit is
stored in front of what is already written and `u` is divided by ten; the last remaining
digit is stored first. The first argument bounds the number of iterations. -/
def formatUintAux : Nat → Nat → GoString → GoString
  | 0, _, acc => acc
  | fuel + 1, u, acc =>
    if u ≥ 10 then formatUintAux fuel (u / 10) ((48 + u % 10).toUInt8 :: acc)
    else (48 + u).toUInt8 :: acc

/-- The text `%d` produces for an unsigned integer (`u + 1` iterations are enough for
every `u`). -/
def formatUint (u : Nat) : GoString := formatUintAux (u + 1) u []

/-- An operand of a formatting call. -/
inductive Arg where
  | str (s : GoString)
  | uint (u : Nat)
  | err (msg : GoString)

/-- The text of an operand under a verb, for the verbs and operand kinds the program uses:
`%s` and `%v` of a string, `%d` and `%v` of an unsigned integer, `%v`, `%s` and (in
`fmt.Errorf`) `%w` of an error: its message. -/
def formatArg (verb : UInt8) (a : Arg) : Option GoString :=
  match a with
  | .str s => if verb = 115 ∨ verb = 118 then some s else none
  | .uint u => if verb = 100 ∨ verb = 118 then some (formatUint u) else none
  | .err msg => if verb = 118 ∨ verb = 119 ∨ verb = 115 then some msg else none

/-- Go `fmt.Sprintf(format, args...)` on the fragment the program uses: plain bytes are
copied, `%` followed by a verb consumes the next operand. A directive that is outside the
fragment (unknown verb for the operand, no operand left, a lone trailing `%`) is copied
unchanged; the program has no such directive. -/
def Sprintf : GoString → List Arg → GoString
  | [], _ => []
  | [c], _ => [c]
  | c :: v :: rest, args =>
    if c = 37 then
      match args with
      | [] => c :: v :: Sprintf rest []
      | a :: as =>
        match formatArg v a with
        | some text => text ++ Sprintf rest as
        | none => c :: v :: Sprintf rest as
    else c :: Sprintf (v :: rest) args

/-- A non-nil Go `error`, known by its message. -/
abbrev GoError := GoString

/-- Go `fmt.Errorf(format, args...)`: an error whose message is the formatted text. -/
def Errorf (format : GoString) (args : List Arg) : GoError := Sprintf format args

/-! ## Output -/

/-- The two output streams, each as the sequence of writes made to it. -/
structure World where
  stdout : List GoString
  stderr : List GoString
deriving DecidableEq

/-- Go `fmt.Println(s)`: one write of `s` followed by a newline to standard output. -/
def Println (s : GoString) (w : World) : World :=
  { w with stdout := w.stdout ++ [s ++ lit "\n"] }

/-- Go `fmt.Printf(format, args...)`: one write of the formatted text to standard output. -/
def Printf (format : GoString) (args : List Arg) (w : World) : World :=
  { w with stdout := w.stdout ++ [Sprintf format args] }

/-- How a procedure call ends: it returns a value, or it stops with a run-time panic. -/
inductive Completion (α : Type) where
  | returned (a : α)
  | panicked
deriving DecidableEq

/-! ## Data model -/

/-- GnmiUpdate represents a single update in a gNMI JSON response. The `values` map is the
lookup function of the Go map. -/
structure GnmiUpdate (V : Type) where
  Path : GoString
  Values : GoString → Option V

/-- GnmiResponse represents a top-level gNMI JSON response. -/
structure GnmiResponse (V : Type) where
  Source : GoString
  Time : GoString
  Updates : List (GnmiUpdate V)

/-- Modelled from the spec: the generated type
`oc.OpenconfigInterfaces_Interfaces_Interface_State_Counters`, whose declaration is in the
generated package `oc`: a fixed set of named optional 64-bit unsigned integer counters
(inbound octets, inbound broadcast packets and eleven others), each present or absent. -/
structure Counters where
  InBroadcastPkts : Option Nat
  InDiscards : Option Nat
  InErrors : Option Nat
  InFcsErrors : Option Nat
  InMulticastPkts : Option Nat
  InOctets : Option Nat
  InUnicastPkts : Option Nat
  OutBroadcastPkts : Option Nat
  OutDiscards : Option Nat
  OutErrors : Option Nat
  OutMulticastPkts : Option Nat
  OutOctets : Option Nat
  OutUnicastPkts : Option Nat
deriving DecidableEq

/-- Modelled from the spec: the generated type
`oc.OpenconfigInterfaces_Interfaces_Interface_State`, of which the program uses the pointer
to the counter record. -/
structure State where
  Counters : Option Counters
deriving DecidableEq

/-- Modelled from the spec: the generated type `oc.OpenconfigInterfaces_Interfaces_Interface`,
of which the program uses the pointer to the name and the pointer to the state. -/
structure Interface where
  Name : Option GoString
  State : Option State
deriving DecidableEq

/-- The library functions the program calls and whose code is outside the source file:
`json.Unmarshal` into `[]GnmiResponse`, `json.Marshal` of a decoded value, and the generated
`oc.Unmarshal` into a counter record. Each returns its result or an error. -/
structure Codec (V : Type) where
  jsonUnmarshal : GoString → Except GoError (List (GnmiResponse V))
  jsonMarshal : V → Except GoError GoString
  ocUnmarshal : GoString → Except GoError Counters

/-! ## Constants -/

def baseURIFormat : GoString := lit "http://example.net/interfaces/%s"
def rdfType : GoString := lit "http://www.w3.org/1999/02/22-rdf-syntax-ns#type"
def rdfInterface : GoString := lit "http://openconfig.net/rdf/Interface"
def rdfInOctets : GoString := lit "http://openconfig.net/rdf/inOctets"
def rdfInBcast : GoString := lit "http://openconfig.net/rdf/inBroadcastPkts"

/-! ## The program -/

/-- parseGnmiJSON unmarshals a gNMI JSON string into a slice of GnmiResponse. -/
def parseGnmiJSON {V : Type} (lib : Codec V) (jsonStr : GoString) :
    Except GoError (List (GnmiResponse V)) :=
  match lib.jsonUnmarshal jsonStr with
  | .error err => .error (Errorf (lit "unmarshaling JSON: %w") [.err err])
  | .ok responses => .ok responses

/-- extractCounters extracts and unmarshals the counters from a gNMI update. -/
def extractCounters {V : Type} (lib : Codec V) (update : GnmiUpdate V) :
    Except GoError Counters :=
  match update.Values (lit "interfaces/interface/state/counters") with
  | none => .error (Errorf (lit "no counters found in update") [])
  | some val =>
    match lib.jsonMarshal val with
    | .error err => .error (Errorf (lit "marshaling counters: %w") [.err err])
    | .ok subJSON =>
      match lib.ocUnmarshal subJSON with
      | .error err => .error (Errorf (lit "unmarshaling counters: %w") [.err err])
      | .ok counters => .ok counters

/-- parseInterfaceName extracts the interface name from a gNMI path. The result is `none`
when a slice expression panics. -/
def parseInterfaceName (path : GoString) : Option GoString :=
  let namePrefix : GoString := lit "[name="
  let start := Index path namePrefix
  if start = -1 then
    some (lit "")
  else
    let start := start + len namePrefix
    match sliceFrom path start with
    | none => none
    | some tail =>
      let «end» := Index tail (lit "]")
      if «end» = -1 then
        some (lit "")
      else
        slice path start (start + «end»)

/-- newInterface creates a new OpenConfig interface with the given name and counters. -/
def newInterface (name : GoString) (counters : Option Counters) : Interface :=
  { Name := some name, State := some { Counters := counters } }

/-- toNTriples converts an OpenConfig interface to N-Triples representation. -/
def toNTriples (iface : Interface) : Except GoError (List GoString) :=
  match iface.Name with
  | none => .error (Errorf (lit "interface name is nil") [])
  | some name =>
    let baseURI := Sprintf baseURIFormat [.str name]
    let triples := [Sprintf (lit "<%s> <%s> <%s> .") [.str baseURI, .str rdfType, .str rdfInterface]]
    let triples :=
      match iface.State with
      | none => triples
      | some state =>
        match state.Counters with
        | none => triples
        | some counters =>
          let triples :=
            match counters.InOctets with
            | none => triples
            | some v =>
              triples ++ [Sprintf (lit "<%s> <%s> \"%d\"^^<http://www.w3.org/2001/XMLSchema#integer> .")
                [.str baseURI, .str rdfInOctets, .uint v]]
          match counters.InBroadcastPkts with
          | none => triples
          | some v =>
            triples ++ [Sprintf (lit "<%s> <%s> \"%d\"^^<http://www.w3.org/2001/XMLSchema#integer> .")
              [.str baseURI, .str rdfInBcast, .uint v]]
    .ok triples

/-- The inner loop of processResponse: each triple is printed on a line of its own. -/
def printTriples (triples : List GoString) (w : World) : World :=
  triples.foldl (fun w triple => Println triple w) w

/-- The loop of processResponse over the updates that remain. It returns the error of the
first update that fails (`none` is the nil error). -/
def processUpdates {V : Type} (lib : Codec V) :
    List (GnmiUpdate V) → World → World × Completion (Option GoError)
  | [], w => (w, .returned none)
  | update :: rest, w =>
    if !Contains update.Path (lit "/state/counters") then
      processUpdates lib rest w
    else
      match extractCounters lib update with
      | .error err => (w, .returned (some (Errorf (lit "extracting counters: %w") [.err err])))
      | .ok counters =>
        match parseInterfaceName update.Path with
        | none => (w, .panicked)
        | some ifaceName =>
          if ifaceName = lit "" then
            (w, .returned (some (Errorf (lit "invalid interface name in path: %s")
              [.str update.Path])))
          else
            let iface := newInterface ifaceName (some counters)
            match toNTriples iface with
            | .error err =>
              (w, .returned (some (Errorf (lit "converting to N-Triples: %w") [.err err])))
            | .ok triples => processUpdates lib rest (printTriples triples w)

/-- processResponse processes a single gNMI response and prints its N-Triples. -/
def processResponse {V : Type} (lib : Codec V) (resp : GnmiResponse V) (w : World) :
    World × Completion (Option GoError) :=
  processUpdates lib resp.Updates w

/-- The loop of main over the responses that remain: a response that fails is reported
with a formatted write to standard output and the loop goes on. -/
def processResponses {V : Type} (lib : Codec V) :
    List (GnmiResponse V) → World → World × Completion Unit
  | [], w => (w, .returned ())
  | resp :: rest, w =>
    match processResponse lib resp w with
    | (w1, .panicked) => (w1, .panicked)
    | (w1, .returned none) => processResponses lib rest w1
    | (w1, .returned (some err)) =>
      processResponses lib rest
        (Printf (lit "Failed to process response from %s: %v\n") [.str resp.Source, .err err] w1)

/-- The body of main on the JSON text `gnmiJSON`. -/
def mainOn {V : Type} (lib : Codec V) (gnmiJSON : GoString) (w : World) :
    World × Completion Unit :=
  match parseGnmiJSON lib gnmiJSON with
  | .error err => (Printf (lit "Failed to parse gNMI JSON: %v\n") [.err err] w, .returned ())
  | .ok responses => processResponses lib responses w



/-- The JSON text that main decodes. -/
def gnmiJSON : GoString :=
  lit "\n[\n  \x7b\n    \"source\": \"192.168.151.7:6030\",\n    \"time\": \"1970-01-01T01:00:00+01:00\",\n    \"updates\": [\n      \x7b\n        \"Path\": \"interfaces/interface[name=Ethernet8]/state/counters\",\n        \"values\": \x7b\n          \"interfaces/interface/state/counters\": \x7b\n            \"openconfig-interfaces:in-broadcast-pkts\": \"2367884\",\n            \"openconfig-interfaces:in-discards\": \"0\",\n            \"openconfig-interfaces:in-errors\": \"0\",\n            \"openconfig-interfaces:in-fcs-errors\": \"0\",\n            \"openconfig-interfaces:in-multicast-pkts\": \"178101\",\n            \"openconfig-interfaces:in-octets\": \"25833637\",\n            \"openconfig-interfaces:in-unicast-pkts\": \"8182\",\n            \"openconfig-interfaces:out-broadcast-pkts\": \"2\",\n            \"openconfig-interfaces:out-discards\": \"0\",\n            \"openconfig-interfaces:out-errors\": \"0\",\n            \"openconfig-interfaces:out-multicast-pkts\": \"152504\",\n            \"openconfig-interfaces:out-octets\": \"2451633129\",\n            \"openconfig-interfaces:out-unicast-pkts\": \"8177\"\n          \x7d\n        \x7d\n      \x7d\n    ]\n  \x7d\n]"

/-- The function main on the JSON text of the source. -/
def main {V : Type} (lib : Codec V) (w : World) : World × Completion Unit :=
  mainOn lib gnmiJSON w

/-! ## Notions used to state the properties -/

/-- The loop of processResponse handles the update: its path contains `/state/counters`. -/
def GnmiUpdate.matching {V : Type} (u : GnmiUpdate V) : Bool :=
  Contains u.Path (lit "/state/counters")

/-- A matching update fails: counter extraction fails, or the interface name resolved from
its path is empty. -/
def GnmiUpdate.failing {V : Type} (lib : Codec V) (u : GnmiUpdate V) : Bool :=
  match extractCounters lib u with
  | .error _ => true
  | .ok _ => parseInterfaceName u.Path == some (lit "")

/-- The error with which the loop of processResponse ends at a failing update. -/
def GnmiUpdate.failure {V : Type} (lib : Codec V) (u : GnmiUpdate V) : GoError :=
  match extractCounters lib u with
  | .error err => Errorf (lit "extracting counters: %w") [.err err]
  | .ok _ => Errorf (lit "invalid interface name in path: %s") [.str u.Path]

/-- The result of toNTriples for the interface of an update: the interface named by the
path of the update, with the counter record extracted from the update. It is empty for an
update that yields no interface. -/
def GnmiUpdate.triples {V : Type} (lib : Codec V) (u : GnmiUpdate V) : List GoString :=
  match extractCounters lib u, parseInterfaceName u.Path with
  | .ok counters, some name =>
    match toNTriples (newInterface name (some counters)) with
    | .ok triples => triples
    | .error _ => []
  | _, _ => []

/-- The interface name resolved from the path of the update is not empty. -/
def GnmiUpdate.resolves {V : Type} (u : GnmiUpdate V) : Bool :=
  match parseInterfaceName u.Path with
  | some name => name != lit ""
  | none => false

/-- The matching updates of a response that come before its first failing matching update;
all its matching updates when none fails. -/
def GnmiResponse.processed {V : Type} (lib : Codec V) (resp : GnmiResponse V) :
    List (GnmiUpdate V) :=
  (resp.Updates.filter GnmiUpdate.matching).takeWhile (fun u => !u.failing lib)

/-- The write to standard output is the line of an rdf:type triple of an interface. -/
def isTypeTripleWrite (s : GoString) : Bool :=
  (lit "<http://example.net/interfaces/").isPrefixOf s &&
    (lit "> <http://www.w3.org/1999/02/22-rdf-syntax-ns#type> <http://openconfig.net/rdf/Interface> .\n").isSuffixOf s

/-- Number of rdf:type triples written to standard output. -/
def typeTriplesWritten (w : World) : Nat :=
  w.stdout.countP isTypeTripleWrite

/-- The value of the variable `start` of parseInterfaceName after
`start += len(namePrefix)`. -/
def nameStart (path : GoString) : Int :=
  Index path (lit "[name=") + len (lit "[name=")

/-- The value of the variable `end` of parseInterfaceName: the index of `]` in
`path[start:]`. -/
def nameEnd (path : GoString) : Int :=
  Index (path.drop (nameStart path).toNat) (lit "]")

/-- The writes of processResponse for a response: the lines of the triples of its processed
updates, in order, each followed by a newline. -/
def GnmiResponse.emitted {V : Type} (lib : Codec V) (resp : GnmiResponse V) :
    List GoString :=
  (resp.processed lib).flatMap (fun u => (u.triples lib).map (fun line => line ++ lit "\n"))

/-- The text has the form of an N-Triples statement, `<subject> <predicate> object .`. -/
def IsStatement (line : GoString) : Prop :=
  ∃ subject predicate object,
    line = lit "<" ++ subject ++ lit "> <" ++ predicate ++ lit "> " ++ object ++ lit " ."

/-- The write is one of the two failure messages of main. -/
def IsFailureMessage (s : GoString) : Prop :=
  (∃ err, s = lit "Failed to parse gNMI JSON: " ++ err ++ lit "\n") ∨
    ∃ source err, s = lit "Failed to process response from " ++ source ++ lit ": " ++ err
      ++ lit "\n"

/-- The write starts like the line of a triple of an interface. -/
def isTripleWrite (s : GoString) : Bool :=
  (lit "<http://example.net/interfaces/").isPrefixOf s

/-- Nothing written yet. -/
def World.empty : World := { stdout := [], stderr := [] }

/-- The write with which main reports the response when processing it fails; nothing when
it does not fail. -/
def GnmiResponse.report {V : Type} (lib : Codec V) (resp : GnmiResponse V) : List GoString :=
  match (processResponse lib resp World.empty).2 with
  | .returned (some err) =>
    [lit "Failed to process response from " ++ resp.Source ++ lit ": " ++ err ++ lit "\n"]
  | _ => []

/-! ## The run of the source on its own input

The value under `interfaces/interface/state/counters` in the JSON text of the source is a
JSON object of thirteen counters; `SampleValue.counters` stands for it. -/

/-- The decoded values that occur in the JSON text of the source. -/
inductive SampleValue where
  | counters
deriving DecidableEq

/-- The JSON encoding of the counters object of the source (keys in sorted order, as
`json.Marshal` writes a map). -/
def sampleCountersJSON : GoString :=
  lit "\x7b\"openconfig-interfaces:in-broadcast-pkts\":\"2367884\",\"openconfig-interfaces:in-discards\":\"0\",\"openconfig-interfaces:in-errors\":\"0\",\"openconfig-interfaces:in-fcs-errors\":\"0\",\"openconfig-interfaces:in-multicast-pkts\":\"178101\",\"openconfig-interfaces:in-octets\":\"25833637\",\"openconfig-interfaces:in-unicast-pkts\":\"8182\",\"openconfig-interfaces:out-broadcast-pkts\":\"2\",\"openconfig-interfaces:out-discards\":\"0\",\"openconfig-interfaces:out-errors\":\"0\",\"openconfig-interfaces:out-multicast-pkts\":\"152504\",\"openconfig-interfaces:out-octets\":\"2451633129\",\"openconfig-interfaces:out-unicast-pkts\":\"8177\"\x7d"

/-- The counter record that the counters object of the source decodes to. -/
def sampleCounters : Counters :=
  { InBroadcastPkts := some 2367884,
    InDiscards := some 0,
    InErrors := some 0,
    InFcsErrors := some 0,
    InMulticastPkts := some 178101,
    InOctets := some 25833637,
    InUnicastPkts := some 8182,
    OutBroadcastPkts := some 2,
    OutDiscards := some 0,
    OutErrors := some 0,
    OutMulticastPkts := some 152504,
    OutOctets := some 2451633129,
    OutUnicastPkts := some 8177 }

/-- The update of the JSON text of the source. -/
def sampleUpdate : GnmiUpdate SampleValue :=
  { Path := lit "interfaces/interface[name=Ethernet8]/state/counters",
    Values := fun key =>
      if key = lit "interfaces/interface/state/counters" then some .counters else none }

/-- The response of the JSON text of the source. -/
def sampleResponse : GnmiResponse SampleValue :=
  { Source := lit "192.168.151.7:6030",
    Time := lit "1970-01-01T01:00:00+01:00",
    Updates := [sampleUpdate] }

/-- The behaviour of the library functions on the values of the JSON text of the source;
any other text is refused. -/
def sampleCodec : Codec SampleValue :=
  { jsonUnmarshal := fun text =>
      if text = gnmiJSON then .ok [sampleResponse] else .error (lit "invalid character"),
    jsonMarshal := fun _ => .ok sampleCountersJSON,
    ocUnmarshal := fun text =>
      if text = sampleCountersJSON then .ok sampleCounters else .error (lit "invalid character") }

/-- A matching update whose value map has no entry at all. -/
def updateWithoutCounters : GnmiUpdate SampleValue :=
  { Path := lit "interfaces/interface[name=Ethernet1]/state/counters",
    Values := fun _ => none }

/-- A matching update whose path has no `[name=` marker. -/
def updateWithoutName : GnmiUpdate SampleValue :=
  { Path := lit "interfaces/interface/state/counters",
    Values := sampleUpdate.Values }

/-- A matching update whose path has an empty name. -/
def updateWithEmptyName : GnmiUpdate SampleValue :=
  { Path := lit "interfaces/interface[name=]/state/counters",
    Values := sampleUpdate.Values }

/-- A response in which an update without counters stands between two copies of the
update of the source. -/
def responseMissingCounters : GnmiResponse SampleValue :=
  { sampleResponse with Updates := [sampleUpdate, updateWithoutCounters, sampleUpdate] }

/-- A response in which an update without counters is followed by the update of the
source. -/
def responseMissingCountersFirst : GnmiResponse SampleValue :=
  { sampleResponse with Updates := [updateWithoutCounters, sampleUpdate] }

/-- A response whose only update has no counters. -/
def responseOnlyMissingCounters : GnmiResponse SampleValue :=
  { sampleResponse with Updates := [updateWithoutCounters] }

/-- A response in which an update without a name stands between two copies of the update of
the source. -/
def responseMissingName : GnmiResponse SampleValue :=
  { sampleResponse with Updates := [sampleUpdate, updateWithoutName, sampleUpdate] }

/-- An update of another subtree: its path does not contain `/state/counters`. -/
def updateOtherPath : GnmiUpdate SampleValue :=
  { Path := lit "interfaces/interface[name=Ethernet8]/state/oper-status",
    Values := fun _ => none }

/-- A matching update whose value map holds the counters object under another key. -/
def updateOtherKey : GnmiUpdate SampleValue :=
  { Path := lit "interfaces/interface[name=Ethernet8]/state/counters",
    Values := fun key => if key = lit "interfaces/interface/state" then some .counters else none }

/-- A counter record with the two emitted counters of the source and no other. -/
def sampleCountersTwoOnly : Counters :=
  { InBroadcastPkts := some 2367884,
    InDiscards := none,
    InErrors := none,
    InFcsErrors := none,
    InMulticastPkts := none,
    InOctets := some 25833637,
    InUnicastPkts := none,
    OutBroadcastPkts := none,
    OutDiscards := none,
    OutErrors := none,
    OutMulticastPkts := none,
    OutOctets := none,
    OutUnicastPkts := none }

/-- A response without any matching update. -/
def responseOtherPaths : GnmiResponse SampleValue :=
  { sampleResponse with Updates := [updateOtherPath, updateOtherPath] }

/-- A response in which the update of the source stands between updates of another
subtree. -/
def responseMixed : GnmiResponse SampleValue :=
  { sampleResponse with Updates := [updateOtherPath, sampleUpdate, updateOtherPath] }

/-- A response in which an update with an empty name stands between two copies of the
update of the source. -/
def responseEmptyName : GnmiResponse SampleValue :=
  { sampleResponse with Updates := [sampleUpdate, updateWithEmptyName, sampleUpdate] }

/-- A JSON text whose single response has a single update, with an empty value map. -/
def missingCountersJSON : GoString :=
  lit "[\x7b\"source\":\"192.168.151.7:6030\",\"time\":\"1970-01-01T01:00:00+01:00\",\"updates\":[\x7b\"Path\":\"interfaces/interface[name=Ethernet1]/state/counters\",\"values\":\x7b\x7d\x7d]\x7d]"

/-- The behaviour of the library functions that also decodes `missingCountersJSON`. -/
def sampleCodecMissing : Codec SampleValue :=
  { jsonUnmarshal := fun text =>
      if text = missingCountersJSON then .ok [responseOnlyMissingCounters]
      else sampleCodec.jsonUnmarshal text,
    jsonMarshal := sampleCodec.jsonMarshal,
    ocUnmarshal := sampleCodec.ocUnmarshal }

/-- A matching update like that of the source, for the interface `Ethernet1`. -/
def sampleUpdateEthernet1 : GnmiUpdate SampleValue :=
  { Path := lit "interfaces/interface[name=Ethernet1]/state/counters",
    Values := sampleUpdate.Values }

/-- A response with the update of the source followed by the update for `Ethernet1`. -/
def responseTwoInterfaces : GnmiResponse SampleValue :=
  { sampleResponse with Updates := [sampleUpdate, sampleUpdateEthernet1] }

/-! ## Searching a string -/

theorem lit_namePrefix : lit "[name=" = [91, 110, 97, 109, 101, 61] := by decide

theorem lit_bracket : lit "]" = [93] := by decide

theorem lit_empty : lit "" = [] := by decide

theorem Index_of_some {s substr : GoString} {i : Nat} (h : indexAux substr s = some i) :
    Index s substr = (i : Int) := by
  simp [Index, h]

theorem Index_of_none {s substr : GoString} (h : indexAux substr s = none) :
    Index s substr = -1 := by
  simp [Index, h]

theorem Index_eq_neg_one_iff (s substr : GoString) :
    Index s substr = -1 ↔ indexAux substr s = none := by
  unfold Index
  cases h : indexAux substr s with
  | none => simp
  | some i => simp

theorem Contains_eq_false_iff (s substr : GoString) :
    Contains s substr = false ↔ indexAux substr s = none := by
  unfold Contains Index
  cases h : indexAux substr s with
  | none => simp
  | some i => simp

theorem Contains_eq_true_iff (s substr : GoString) :
    Contains s substr = true ↔ ∃ i, indexAux substr s = some i := by
  unfold Contains Index
  cases h : indexAux substr s with
  | none => simp
  | some i => simp

/-- A found position leaves room for the whole of `substr`. -/
theorem indexAux_bound {substr : GoString} :
    ∀ {s : GoString} {i : Nat}, indexAux substr s = some i → i + substr.length ≤ s.length
  | [], i, h => by
    unfold indexAux at h
    split at h
    · rename_i he
      simp at h
      simp [List.isEmpty_iff.mp he, ← h]
    · simp at h
  | c :: cs, i, h => by
    unfold indexAux at h
    split at h
    · rename_i hp
      have := (List.isPrefixOf_iff_prefix.mp hp).length_le
      simp at h
      omega
    · cases hcs : indexAux substr cs with
      | none => simp [hcs] at h
      | some j =>
        have := indexAux_bound hcs
        simp [hcs] at h
        simp
        omega

/-- At a found position `substr` is read. -/
theorem indexAux_prefix {substr : GoString} :
    ∀ {s : GoString} {i : Nat}, indexAux substr s = some i → substr <+: s.drop i
  | [], i, h => by
    unfold indexAux at h
    split at h
    · rename_i he
      simp [List.isEmpty_iff.mp he]
    · simp at h
  | c :: cs, i, h => by
    unfold indexAux at h
    split at h
    · rename_i hp
      simp at h
      subst h
      simpa using List.isPrefixOf_iff_prefix.mp hp
    · cases hcs : indexAux substr cs with
      | none => simp [hcs] at h
      | some j =>
        have := indexAux_prefix hcs
        simp [hcs] at h
        subst h
        simpa using this

/-- A string that starts with a byte that does not come back in it cannot begin inside `q`
and run over into a following copy of itself. -/
theorem prefix_stops_before {a : UInt8} :
    ∀ {t q x : GoString}, a ∉ t → t <+: q ++ a :: x → t <+: q
  | [], _, _, _, _ => List.nil_prefix
  | b :: t, [], x, ha, h => by
    have := List.cons_prefix_cons.mp (by simpa using h)
    simp at ha
    exact absurd this.1.symm ha.1
  | b :: t, c :: q, x, ha, h => by
    have h2 := List.cons_prefix_cons.mp (by simpa using h)
    simp at ha
    exact List.cons_prefix_cons.mpr ⟨h2.1, prefix_stops_before ha.2 h2.2⟩

/-- The first occurrence of a marker whose first byte does not come back in it, after a
text `p` in which the marker does not occur, is right after `p`. -/
theorem indexAux_append_marker {a : UInt8} {t : GoString} (ha : a ∉ t) (x : GoString) :
    ∀ (p : GoString), indexAux (a :: t) p = none →
      indexAux (a :: t) (p ++ (a :: t) ++ x) = some p.length
  | [], _ => by
    simp [indexAux]
  | c :: p, h => by
    unfold indexAux at h
    split at h
    · simp at h
    · rename_i hp
      have hp2 : indexAux (a :: t) p = none := by
        cases hq : indexAux (a :: t) p with
        | none => rfl
        | some j => simp [hq] at h
      have ih := indexAux_append_marker ha x p hp2
      have hnot : ¬ ((a :: t).isPrefixOf (c :: p ++ (a :: t) ++ x) = true) := by
        intro hc
        have hc2 := List.cons_prefix_cons.mp (by simpa using List.isPrefixOf_iff_prefix.mp hc)
        have := prefix_stops_before ha (x := t ++ x) (q := p) (by simpa using hc2.2)
        exact hp (List.isPrefixOf_iff_prefix.mpr (List.cons_prefix_cons.mpr ⟨hc2.1, this⟩))
      show indexAux (a :: t) (c :: (p ++ (a :: t) ++ x)) = _
      unfold indexAux
      rw [if_neg (by simpa using hnot), ih]
      simp

/-! ## Slices -/

theorem sliceFrom_natCast (s : GoString) (k : Nat) (h : k ≤ s.length) :
    sliceFrom s (k : Int) = some (s.drop k) := by
  unfold sliceFrom len
  rw [if_pos ⟨by omega, by omega⟩]
  simp

theorem slice_natCast (s : GoString) (i j : Nat) (hij : i ≤ j) (hj : j ≤ s.length) :
    slice s (i : Int) (j : Int) = some ((s.take j).drop i) := by
  unfold slice len
  rw [if_pos ⟨by omega, by omega, by omega⟩]
  simp

theorem len_namePrefix : len (lit "[name=") = 6 := by decide

/-! ## parseInterfaceName -/

/-- No marker: the empty string. -/
theorem parseInterfaceName_no_marker {path : GoString}
    (h : indexAux (lit "[name=") path = none) :
    parseInterfaceName path = some [] := by
  unfold parseInterfaceName
  simp only [Index_of_none h, if_true, lit_empty]

/-- A marker and no closing bracket after it: the empty string. -/
theorem parseInterfaceName_no_bracket {path : GoString} {i : Nat}
    (h : indexAux (lit "[name=") path = some i)
    (h2 : indexAux (lit "]") (path.drop (i + 6)) = none) :
    parseInterfaceName path = some [] := by
  have hb := indexAux_bound h
  have hlen : (lit "[name=").length = 6 := by decide
  have hcast : (i : Int) + 6 = ((i + 6 : Nat) : Int) := by push_cast; rfl
  unfold parseInterfaceName
  simp only [Index_of_some h, len_namePrefix, hcast]
  rw [if_neg (by omega), sliceFrom_natCast _ _ (by omega)]
  simp only [Index_of_none h2, if_true, lit_empty]

/-- A marker and a closing bracket after it: the text between them. -/
theorem parseInterfaceName_found {path : GoString} {i e : Nat}
    (h : indexAux (lit "[name=") path = some i)
    (h2 : indexAux (lit "]") (path.drop (i + 6)) = some e) :
    parseInterfaceName path = some ((path.drop (i + 6)).take e) := by
  have hb := indexAux_bound h
  have hb2 := indexAux_bound h2
  have hlen : (lit "[name=").length = 6 := by decide
  have hlen2 : (lit "]").length = 1 := by decide
  rw [List.length_drop] at hb2
  have hcast : (i : Int) + 6 = ((i + 6 : Nat) : Int) := by push_cast; rfl
  have hcast2 : ((i + 6 : Nat) : Int) + (e : Int) = ((i + 6 + e : Nat) : Int) := by
    push_cast; rfl
  unfold parseInterfaceName
  simp only [Index_of_some h, len_namePrefix, hcast]
  rw [if_neg (by omega), sliceFrom_natCast _ _ (by omega)]
  simp only [Index_of_some h2, hcast2]
  rw [if_neg (by omega), slice_natCast _ _ _ (by omega) (by omega), List.drop_take]
  simp

/-- The slice expressions of parseInterfaceName are never out of range. -/
theorem parseInterfaceName_returns (path : GoString) :
    ∃ name, parseInterfaceName path = some name := by
  cases h : indexAux (lit "[name=") path with
  | none => exact ⟨_, parseInterfaceName_no_marker h⟩
  | some i =>
    cases h2 : indexAux (lit "]") (path.drop (i + 6)) with
    | none => exact ⟨_, parseInterfaceName_no_bracket h h2⟩
    | some e => exact ⟨_, parseInterfaceName_found h h2⟩

/-- C1: parseInterfaceName returns the text between the first `[name=` marker and the
next `]`: when `p` does not contain `[name=` and `n` does not contain `]`, the call on
`p ++ "[name=" ++ n ++ "]" ++ s` returns `n` (and does not panic). -/
theorem parseInterfaceName_between_markers (p n s : GoString)
    (hp : Contains p (lit "[name=") = false) (hn : Contains n (lit "]") = false) :
    parseInterfaceName (p ++ lit "[name=" ++ n ++ lit "]" ++ s) = some n := by
  rw [Contains_eq_false_iff] at hp hn
  have h1 : indexAux (lit "[name=") (p ++ lit "[name=" ++ n ++ lit "]" ++ s)
      = some p.length := by
    have := indexAux_append_marker (a := 91) (t := [110, 97, 109, 101, 61]) (by decide)
      (n ++ lit "]" ++ s) p (by rw [← lit_namePrefix]; exact hp)
    rw [← lit_namePrefix] at this
    simpa [List.append_assoc] using this
  have hdrop : (p ++ lit "[name=" ++ n ++ lit "]" ++ s).drop (p.length + 6)
      = n ++ lit "]" ++ s := by
    have hlen : (p ++ lit "[name=").length = p.length + 6 := by
      rw [List.length_append]; rfl
    rw [← hlen]
    simp only [List.append_assoc]
    rw [← List.append_assoc p, List.drop_left]
  have h2 : indexAux (lit "]") ((p ++ lit "[name=" ++ n ++ lit "]" ++ s).drop (p.length + 6))
      = some n.length := by
    rw [hdrop]
    have := indexAux_append_marker (a := 93) (t := []) (by decide) s n
      (by rw [← lit_bracket]; exact hn)
    rw [← lit_bracket] at this
    exact this
  rw [parseInterfaceName_found h1 h2, hdrop]
  simp only [List.append_assoc]
  rw [List.take_left]

/-- C1 at `p = "interfaces/interface"`, `n = "Ethernet8"`, `s = "/state/counters"`. -/
theorem parseInterfaceName_between_markers_witness :
    Contains (lit "interfaces/interface") (lit "[name=") = false ∧
    Contains (lit "Ethernet8") (lit "]") = false ∧
    parseInterfaceName (lit "interfaces/interface" ++ lit "[name=" ++ lit "Ethernet8"
      ++ lit "]" ++ lit "/state/counters") = some (lit "Ethernet8") :=
  ⟨by decide, by decide,
    parseInterfaceName_between_markers (lit "interfaces/interface") (lit "Ethernet8")
      (lit "/state/counters") (by decide) (by decide)⟩

/-- C2: for every path that does not contain the marker `[name=`, parseInterfaceName
returns the empty string. -/
theorem parseInterfaceName_without_marker (path : GoString)
    (h : Contains path (lit "[name=") = false) :
    parseInterfaceName path = some (lit "") := by
  rw [Contains_eq_false_iff] at h
  rw [parseInterfaceName_no_marker h, lit_empty]

/-- C2 at the path `interfaces/interface/state/counters`. -/
theorem parseInterfaceName_without_marker_witness :
    Contains (lit "interfaces/interface/state/counters") (lit "[name=") = false ∧
    parseInterfaceName (lit "interfaces/interface/state/counters") = some (lit "") :=
  ⟨by decide, parseInterfaceName_without_marker _ (by decide)⟩



/-! ## Formatting lemmas -/

theorem encode_digitChar : ∀ d, d < 10 →
    String.utf8EncodeChar (Nat.digitChar d) = [(48 + d).toUInt8] := by
  decide

theorem lit_mk (l : List Char) : lit (String.mk l) = l.flatMap String.utf8EncodeChar := rfl

theorem formatUintAux_eq_toDigitsCore : ∀ (fuel u : Nat) (acc : List Char),
    formatUintAux fuel u (acc.flatMap String.utf8EncodeChar)
      = (Nat.toDigitsCore 10 fuel u acc).flatMap String.utf8EncodeChar
  | 0, _, _ => rfl
  | fuel + 1, u, acc => by
    unfold formatUintAux Nat.toDigitsCore
    by_cases hu : u ≥ 10
    · have h0 : u / 10 ≠ 0 := by omega
      rw [if_pos hu]
      simp only [h0, if_false]
      rw [← formatUintAux_eq_toDigitsCore fuel (u / 10) (Nat.digitChar (u % 10) :: acc)]
      simp [encode_digitChar (u % 10) (by omega)]
    · have h0 : u / 10 = 0 := by omega
      have h1 : u % 10 = u := by omega
      rw [if_neg hu]
      simp [h0, h1, encode_digitChar u (by omega)]

/-- The text `%d` produces is the decimal numeral of the number. -/
theorem formatUint_eq_repr (u : Nat) : formatUint u = lit (Nat.repr u) := by
  have := formatUintAux_eq_toDigitsCore (u + 1) u []
  simpa [formatUint, Nat.repr, Nat.toDigits, List.asString, lit_mk] using this

/-- The decimal text of the least and of the greatest unsigned 64-bit value. -/
theorem formatUint_extremes :
    formatUint 0 = lit "0" ∧
    formatUint (2 ^ 64 - 1) = lit "18446744073709551615" := by
  decide

theorem Sprintf_baseURI (name : GoString) :
    Sprintf baseURIFormat [.str name] = lit "http://example.net/interfaces/" ++ name := by
  have h : Sprintf baseURIFormat [.str name]
      = lit "http://example.net/interfaces/" ++ (name ++ []) := rfl
  simpa using h

set_option maxRecDepth 4000 in
theorem Sprintf_typeTriple (name : GoString) :
    Sprintf (lit "<%s> <%s> <%s> .")
        [.str (lit "http://example.net/interfaces/" ++ name), .str rdfType, .str rdfInterface]
      = lit "<http://example.net/interfaces/" ++ name
        ++ lit "> <http://www.w3.org/1999/02/22-rdf-syntax-ns#type> <http://openconfig.net/rdf/Interface> ." := by
  have h : ∀ x : GoString, Sprintf (lit "<%s> <%s> <%s> .") [.str x, .str rdfType, .str rdfInterface]
      = lit "<" ++ (x
        ++ lit "> <http://www.w3.org/1999/02/22-rdf-syntax-ns#type> <http://openconfig.net/rdf/Interface> .") :=
    fun _ => rfl
  rw [h, List.append_assoc, List.append_assoc]
  rfl

set_option maxRecDepth 4000 in
theorem Sprintf_inOctetsTriple (name : GoString) (v : Nat) :
    Sprintf (lit "<%s> <%s> \"%d\"^^<http://www.w3.org/2001/XMLSchema#integer> .")
        [.str (lit "http://example.net/interfaces/" ++ name), .str rdfInOctets, .uint v]
      = lit "<http://example.net/interfaces/" ++ name
        ++ lit "> <http://openconfig.net/rdf/inOctets> \"" ++ lit (Nat.repr v)
        ++ lit "\"^^<http://www.w3.org/2001/XMLSchema#integer> ." := by
  have h : ∀ x : GoString,
      Sprintf (lit "<%s> <%s> \"%d\"^^<http://www.w3.org/2001/XMLSchema#integer> .")
        [.str x, .str rdfInOctets, .uint v]
      = lit "<" ++ (x ++ (lit "> <http://openconfig.net/rdf/inOctets> \""
        ++ (formatUint v ++ lit "\"^^<http://www.w3.org/2001/XMLSchema#integer> ."))) :=
    fun _ => rfl
  rw [h, formatUint_eq_repr]
  simp only [List.append_assoc]
  rfl

set_option maxRecDepth 4000 in
theorem Sprintf_inBcastTriple (name : GoString) (v : Nat) :
    Sprintf (lit "<%s> <%s> \"%d\"^^<http://www.w3.org/2001/XMLSchema#integer> .")
        [.str (lit "http://example.net/interfaces/" ++ name), .str rdfInBcast, .uint v]
      = lit "<http://example.net/interfaces/" ++ name
        ++ lit "> <http://openconfig.net/rdf/inBroadcastPkts> \"" ++ lit (Nat.repr v)
        ++ lit "\"^^<http://www.w3.org/2001/XMLSchema#integer> ." := by
  have h : ∀ x : GoString,
      Sprintf (lit "<%s> <%s> \"%d\"^^<http://www.w3.org/2001/XMLSchema#integer> .")
        [.str x, .str rdfInBcast, .uint v]
      = lit "<" ++ (x ++ (lit "> <http://openconfig.net/rdf/inBroadcastPkts> \""
        ++ (formatUint v ++ lit "\"^^<http://www.w3.org/2001/XMLSchema#integer> ."))) :=
    fun _ => rfl
  rw [h, formatUint_eq_repr]
  simp only [List.append_assoc]
  rfl



/-! ## toNTriples -/

/-- With a name present toNTriples succeeds with a list whose first element is the
rdf:type line. -/
theorem toNTriples_first_is_type_aux (n : GoString) (state : Option State) :
    ∃ rest, toNTriples { Name := some n, State := state } = .ok
      ((lit "<http://example.net/interfaces/" ++ n
        ++ lit "> <http://www.w3.org/1999/02/22-rdf-syntax-ns#type> <http://openconfig.net/rdf/Interface> .")
        :: rest) := by
  unfold toNTriples
  simp only [Sprintf_baseURI, Sprintf_typeTriple]
  rcases state with _ | ⟨_ | c⟩
  · exact ⟨_, rfl⟩
  · exact ⟨_, rfl⟩
  · rcases hO : c.InOctets with _ | a <;> rcases hB : c.InBroadcastPkts with _ | b <;>
      exact ⟨_, by simp only [hO, hB]; rfl⟩

/-- The lines toNTriples returns for an interface that has a name and a counter record. -/
theorem toNTriples_newInterface (n : GoString) (c : Counters) :
    toNTriples (newInterface n (some c)) = .ok
      ([lit "<http://example.net/interfaces/" ++ n
          ++ lit "> <http://www.w3.org/1999/02/22-rdf-syntax-ns#type> <http://openconfig.net/rdf/Interface> ."]
        ++ (match c.InOctets with
            | some a =>
              [lit "<http://example.net/interfaces/" ++ n
                ++ lit "> <http://openconfig.net/rdf/inOctets> \"" ++ lit (Nat.repr a)
                ++ lit "\"^^<http://www.w3.org/2001/XMLSchema#integer> ."]
            | none => [])
        ++ (match c.InBroadcastPkts with
            | some b =>
              [lit "<http://example.net/interfaces/" ++ n
                ++ lit "> <http://openconfig.net/rdf/inBroadcastPkts> \"" ++ lit (Nat.repr b)
                ++ lit "\"^^<http://www.w3.org/2001/XMLSchema#integer> ."]
            | none => [])) := by
  unfold toNTriples newInterface
  simp only [Sprintf_baseURI, Sprintf_typeTriple, Sprintf_inOctetsTriple, Sprintf_inBcastTriple]
  rcases hO : c.InOctets with _ | a <;> rcases hB : c.InBroadcastPkts with _ | b <;> rfl

/-- C3: for every interface whose name `n` is present (any string, inserted as it is), with
or without a state and a counter record, toNTriples succeeds and the first element of its
result is the rdf:type line of `<http://example.net/interfaces/n>`. -/
theorem toNTriples_first_is_type (n : GoString) (state : Option State) :
    ∃ rest, toNTriples { Name := some n, State := state } = .ok
      ((lit "<http://example.net/interfaces/" ++ n
        ++ lit "> <http://www.w3.org/1999/02/22-rdf-syntax-ns#type> <http://openconfig.net/rdf/Interface> .")
        :: rest) :=
  toNTriples_first_is_type_aux n state

/-- C4: for every interface name `n` and every counter record, toNTriples returns exactly
the rdf:type line, then the inOctets line when inOctets is present, then the inBroadcastPkts
line when inBroadcastPkts is present; the literal is the decimal numeral of the value. This
holds for every value, in particular for every value of the unsigned 64-bit range. -/
theorem toNTriples_exact (n : GoString) (c : Counters) :
    toNTriples (newInterface n (some c)) = .ok
      ([lit "<http://example.net/interfaces/" ++ n
          ++ lit "> <http://www.w3.org/1999/02/22-rdf-syntax-ns#type> <http://openconfig.net/rdf/Interface> ."]
        ++ (match c.InOctets with
            | some a =>
              [lit "<http://example.net/interfaces/" ++ n
                ++ lit "> <http://openconfig.net/rdf/inOctets> \"" ++ lit (Nat.repr a)
                ++ lit "\"^^<http://www.w3.org/2001/XMLSchema#integer> ."]
            | none => [])
        ++ (match c.InBroadcastPkts with
            | some b =>
              [lit "<http://example.net/interfaces/" ++ n
                ++ lit "> <http://openconfig.net/rdf/inBroadcastPkts> \"" ++ lit (Nat.repr b)
                ++ lit "\"^^<http://www.w3.org/2001/XMLSchema#integer> ."]
            | none => [])) :=
  toNTriples_newInterface n c

/-- C5: sparse-field law. For every interface name, a counter record in which inOctets is
set and inBroadcastPkts is not yields exactly two lines (the rdf:type line, then the
inOctets line); a counter record with neither of the two set yields exactly one line (the
rdf:type line); so does an absent counter record. The other fields of the record `c` are
arbitrary. -/
theorem toNTriples_sparse (n : GoString) (c : Counters) (a : Nat) :
    toNTriples (newInterface n (some { c with InOctets := some a, InBroadcastPkts := none }))
      = .ok
        [lit "<http://example.net/interfaces/" ++ n
          ++ lit "> <http://www.w3.org/1999/02/22-rdf-syntax-ns#type> <http://openconfig.net/rdf/Interface> .",
         lit "<http://example.net/interfaces/" ++ n
          ++ lit "> <http://openconfig.net/rdf/inOctets> \"" ++ lit (Nat.repr a)
          ++ lit "\"^^<http://www.w3.org/2001/XMLSchema#integer> ."]
    ∧ toNTriples (newInterface n (some { c with InOctets := none, InBroadcastPkts := none }))
      = .ok
        [lit "<http://example.net/interfaces/" ++ n
          ++ lit "> <http://www.w3.org/1999/02/22-rdf-syntax-ns#type> <http://openconfig.net/rdf/Interface> ."]
    ∧ toNTriples (newInterface n none)
      = .ok
        [lit "<http://example.net/interfaces/" ++ n
          ++ lit "> <http://www.w3.org/1999/02/22-rdf-syntax-ns#type> <http://openconfig.net/rdf/Interface> ."] := by
  unfold toNTriples newInterface
  simp only [Sprintf_baseURI, Sprintf_typeTriple, Sprintf_inOctetsTriple]
  refine ⟨?_, trivial, trivial⟩
  rfl

/-- C7, as the code has it: toNTriples returns an error if and only if the name of the
interface is absent (a nil pointer); it succeeds for every interface whose name is present,
the empty string included. -/
theorem toNTriples_error_iff_name_absent (iface : Interface) :
    (∃ err, toNTriples iface = .error err) ↔ iface.Name = none := by
  rcases iface with ⟨_ | name, state⟩
  · simp [toNTriples]
  · simp only [reduceCtorEq, iff_false, not_exists]
    intro err h
    obtain ⟨rest, hr⟩ := toNTriples_first_is_type_aux name state
    rw [hr] at h
    cases h

set_option maxRecDepth 8000 in
/-- C7 fails as stated: for an interface whose name is the empty string toNTriples does not
fail, it returns the rdf:type line of `<http://example.net/interfaces/>`. -/
theorem toNTriples_empty_name_succeeds :
    toNTriples { Name := some (lit ""), State := none } = .ok
      [lit "<http://example.net/interfaces/> <http://www.w3.org/1999/02/22-rdf-syntax-ns#type> <http://openconfig.net/rdf/Interface> ."] := by
  rfl

/-! ## processResponse -/

/-- An update whose path does not contain `/state/counters` is passed over. -/
theorem processUpdates_cons_skip {V : Type} (lib : Codec V) (u : GnmiUpdate V)
    (rest : List (GnmiUpdate V)) (w : World) (h : u.matching = false) :
    processUpdates lib (u :: rest) w = processUpdates lib rest w := by
  unfold GnmiUpdate.matching at h
  rw [processUpdates]
  simp [h]

/-- A matching update that fails ends the loop with its error and writes nothing. -/
theorem processUpdates_cons_failing {V : Type} (lib : Codec V) (u : GnmiUpdate V)
    (rest : List (GnmiUpdate V)) (w : World) (hm : u.matching = true)
    (hf : u.failing lib = true) :
    processUpdates lib (u :: rest) w = (w, .returned (some (u.failure lib))) := by
  unfold GnmiUpdate.matching at hm
  unfold GnmiUpdate.failing at hf
  unfold GnmiUpdate.failure
  rw [processUpdates]
  simp only [hm, Bool.not_true, Bool.false_eq_true, if_false]
  cases hx : extractCounters lib u with
  | error e => rfl
  | ok c =>
    simp only [hx, beq_iff_eq] at hf
    simp only [hf, if_true]

/-- A matching update that does not fail has a non-empty resolved name and a counter
record, and its triples are the result of toNTriples for them. -/
theorem triples_of_not_failing {V : Type} (lib : Codec V) (u : GnmiUpdate V)
    (hf : u.failing lib = false) :
    ∃ name counters, name ≠ lit "" ∧ parseInterfaceName u.Path = some name ∧
      extractCounters lib u = .ok counters ∧
      toNTriples (newInterface name (some counters)) = .ok (u.triples lib) := by
  unfold GnmiUpdate.failing at hf
  cases hx : extractCounters lib u with
  | error e => simp [hx] at hf
  | ok c =>
    obtain ⟨name, hname⟩ := parseInterfaceName_returns u.Path
    have hne : name ≠ lit "" := by
      intro h
      simp [hx, hname, h] at hf
    obtain ⟨rest1, ht⟩ := toNTriples_first_is_type_aux name (some { Counters := some c })
    refine ⟨name, c, hne, hname, rfl, ?_⟩
    unfold GnmiUpdate.triples
    simp only [hx, hname]
    unfold newInterface
    simp only [ht]

/-- A matching update that does not fail writes its triples, and the loop goes on. -/
theorem processUpdates_cons_ok {V : Type} (lib : Codec V) (u : GnmiUpdate V)
    (rest : List (GnmiUpdate V)) (w : World) (hm : u.matching = true)
    (hf : u.failing lib = false) :
    processUpdates lib (u :: rest) w
      = processUpdates lib rest (printTriples (u.triples lib) w) := by
  obtain ⟨name, c, hne, hname, hx, ht⟩ := triples_of_not_failing lib u hf
  unfold GnmiUpdate.matching at hm
  rw [processUpdates]
  simp only [hm, Bool.not_true, Bool.false_eq_true, if_false, hx, hname, if_neg hne, ht]

/-- The loop never stops with a panic. -/
theorem processUpdates_not_panicked {V : Type} (lib : Codec V) :
    ∀ (us : List (GnmiUpdate V)) (w : World), (processUpdates lib us w).2 ≠ .panicked
  | [], w => by simp [processUpdates]
  | u :: rest, w => by
    cases hm : u.matching with
    | false =>
      rw [processUpdates_cons_skip lib u rest w hm]
      exact processUpdates_not_panicked lib rest w
    | true =>
      cases hf : u.failing lib with
      | true => simp [processUpdates_cons_failing lib u rest w hm hf]
      | false =>
        rw [processUpdates_cons_ok lib u rest w hm hf]
        exact processUpdates_not_panicked lib rest _

/-- The loop over `pre ++ post` is the loop over `pre`, followed by the loop over `post`
when the first one returned no error. -/
theorem processUpdates_append {V : Type} (lib : Codec V) (post : List (GnmiUpdate V)) :
    ∀ (pre : List (GnmiUpdate V)) (w : World),
      processUpdates lib (pre ++ post) w =
        match processUpdates lib pre w with
        | (w1, .returned none) => processUpdates lib post w1
        | r => r
  | [], w => by simp [processUpdates]
  | u :: pre, w => by
    cases hm : u.matching with
    | false =>
      rw [List.cons_append, processUpdates_cons_skip lib u _ w hm,
        processUpdates_cons_skip lib u _ w hm]
      exact processUpdates_append lib post pre w
    | true =>
      cases hf : u.failing lib with
      | true =>
        rw [List.cons_append, processUpdates_cons_failing lib u _ w hm hf,
          processUpdates_cons_failing lib u _ w hm hf]
      | false =>
        rw [List.cons_append, processUpdates_cons_ok lib u _ w hm hf,
          processUpdates_cons_ok lib u _ w hm hf]
        exact processUpdates_append lib post pre _

/-- At a failing matching update that follows `pre`, the loop ends with an error and the
output is the output of the loop over `pre`. -/
theorem processUpdates_stops_at_failing {V : Type} (lib : Codec V)
    (pre post : List (GnmiUpdate V)) (u : GnmiUpdate V) (w : World)
    (hm : u.matching = true) (hf : u.failing lib = true) :
    (∃ err, (processUpdates lib (pre ++ u :: post) w).2 = .returned (some err)) ∧
      (processUpdates lib (pre ++ u :: post) w).1 = (processUpdates lib pre w).1 := by
  rw [processUpdates_append]
  have hp := processUpdates_not_panicked lib pre w
  rcases h : processUpdates lib pre w with ⟨w1, (_ | err) | _⟩
  · show (∃ err, (processUpdates lib (u :: post) w1).2 = _) ∧
      (processUpdates lib (u :: post) w1).1 = w1
    rw [processUpdates_cons_failing lib u post w1 hm hf]
    exact ⟨⟨_, rfl⟩, rfl⟩
  · exact ⟨⟨_, rfl⟩, rfl⟩
  · simp [h] at hp

/-- A matching update whose path has no `[name=` marker fails. -/
theorem failing_of_no_marker {V : Type} (lib : Codec V) (u : GnmiUpdate V)
    (hn : Contains u.Path (lit "[name=") = false) : u.failing lib = true := by
  rw [Contains_eq_false_iff] at hn
  unfold GnmiUpdate.failing
  cases hx : extractCounters lib u with
  | error e => rfl
  | ok c => simp [parseInterfaceName_no_marker hn, lit_empty]

/-- A matching update whose value map lacks the counters key fails, with the error
"no counters found in update". -/
theorem extractCounters_of_no_key {V : Type} (lib : Codec V) (u : GnmiUpdate V)
    (hk : u.Values (lit "interfaces/interface/state/counters") = none) :
    extractCounters lib u = .error (lit "no counters found in update") := by
  unfold extractCounters
  simp only [hk]
  rfl

set_option maxRecDepth 4000 in
/-- The lines of the interface `Ethernet8` with the two counters of the source. -/
theorem triples_Ethernet8 (c : Counters) (hO : c.InOctets = some 25833637)
    (hB : c.InBroadcastPkts = some 2367884) :
    toNTriples (newInterface (lit "Ethernet8") (some c)) = .ok
      [lit "<http://example.net/interfaces/Ethernet8> <http://www.w3.org/1999/02/22-rdf-syntax-ns#type> <http://openconfig.net/rdf/Interface> .",
       lit "<http://example.net/interfaces/Ethernet8> <http://openconfig.net/rdf/inOctets> \"25833637\"^^<http://www.w3.org/2001/XMLSchema#integer> .",
       lit "<http://example.net/interfaces/Ethernet8> <http://openconfig.net/rdf/inBroadcastPkts> \"2367884\"^^<http://www.w3.org/2001/XMLSchema#integer> ."] := by
  rw [toNTriples_newInterface, hO, hB]
  rfl

/-- C6: the scenario of the source. A response whose single update has the path
`interfaces/interface[name=Ethernet8]/state/counters` and whose extracted counter record has
inOctets = 25833637 and inBroadcastPkts = 2367884 is processed without error, and exactly
three lines are written, in this order: the rdf:type line, the inOctets line and the
inBroadcastPkts line of `<http://example.net/interfaces/Ethernet8>`. -/
theorem processResponse_scenario {V : Type} (lib : Codec V) (resp : GnmiResponse V)
    (u : GnmiUpdate V) (c : Counters) (w : World)
    (hu : resp.Updates = [u])
    (hpath : u.Path = lit "interfaces/interface[name=Ethernet8]/state/counters")
    (hx : extractCounters lib u = .ok c)
    (hO : c.InOctets = some 25833637) (hB : c.InBroadcastPkts = some 2367884) :
    processResponse lib resp w
      = (World.mk (w.stdout ++ List.map (fun line => line ++ lit "\n")
            [lit "<http://example.net/interfaces/Ethernet8> <http://www.w3.org/1999/02/22-rdf-syntax-ns#type> <http://openconfig.net/rdf/Interface> .",
             lit "<http://example.net/interfaces/Ethernet8> <http://openconfig.net/rdf/inOctets> \"25833637\"^^<http://www.w3.org/2001/XMLSchema#integer> .",
             lit "<http://example.net/interfaces/Ethernet8> <http://openconfig.net/rdf/inBroadcastPkts> \"2367884\"^^<http://www.w3.org/2001/XMLSchema#integer> ."])
          w.stderr,
         .returned none) := by
  have hc : Contains (lit "interfaces/interface[name=Ethernet8]/state/counters")
      (lit "/state/counters") = true := by decide
  have hp : parseInterfaceName (lit "interfaces/interface[name=Ethernet8]/state/counters")
      = some (lit "Ethernet8") := by decide
  have hne : lit "Ethernet8" ≠ lit "" := by decide
  unfold processResponse
  rw [hu, processUpdates]
  simp only [hpath, hc, Bool.not_true, Bool.false_eq_true, if_false, hx, hp, if_neg hne,
    triples_Ethernet8 c hO hB]
  simp [processUpdates, printTriples, Println]

set_option maxRecDepth 100000 in
/-- C6 on the response of the source, with the library functions as they behave on it. -/
theorem processResponse_scenario_witness :
    sampleResponse.Updates = [sampleUpdate] ∧
    sampleUpdate.Path = lit "interfaces/interface[name=Ethernet8]/state/counters" ∧
    extractCounters sampleCodec sampleUpdate = .ok sampleCounters ∧
    sampleCounters.InOctets = some 25833637 ∧
    sampleCounters.InBroadcastPkts = some 2367884 ∧
    processResponse sampleCodec sampleResponse World.empty
      = (World.mk (World.empty.stdout ++ List.map (fun line => line ++ lit "\n")
            [lit "<http://example.net/interfaces/Ethernet8> <http://www.w3.org/1999/02/22-rdf-syntax-ns#type> <http://openconfig.net/rdf/Interface> .",
             lit "<http://example.net/interfaces/Ethernet8> <http://openconfig.net/rdf/inOctets> \"25833637\"^^<http://www.w3.org/2001/XMLSchema#integer> .",
             lit "<http://example.net/interfaces/Ethernet8> <http://openconfig.net/rdf/inBroadcastPkts> \"2367884\"^^<http://www.w3.org/2001/XMLSchema#integer> ."])
          World.empty.stderr,
         .returned none) :=
  ⟨rfl, rfl, rfl, rfl, rfl,
    processResponse_scenario sampleCodec sampleResponse sampleUpdate sampleCounters
      World.empty rfl rfl rfl rfl rfl⟩

/-- C8, as the code has it: when the value map of a matching update lacks the key
`interfaces/interface/state/counters`, extraction fails with "no counters found in update",
processResponse returns an error, and what it has written is what the updates before that
one wrote: nothing is written for that update nor for any update after it. When no earlier
update failed, the error returned is that of the update. -/
theorem processResponse_stops_at_missing_counters {V : Type} (lib : Codec V)
    (resp : GnmiResponse V) (pre post : List (GnmiUpdate V)) (u : GnmiUpdate V) (w : World)
    (hu : resp.Updates = pre ++ u :: post)
    (hm : Contains u.Path (lit "/state/counters") = true)
    (hk : u.Values (lit "interfaces/interface/state/counters") = none) :
    extractCounters lib u = .error (lit "no counters found in update") ∧
    (∃ err, (processResponse lib resp w).2 = .returned (some err)) ∧
    (processResponse lib resp w).1 = (processResponse lib { resp with Updates := pre } w).1 ∧
    ((processResponse lib { resp with Updates := pre } w).2 = .returned none →
      (processResponse lib resp w).2
        = .returned (some (lit "extracting counters: no counters found in update"))) := by
  have hx := extractCounters_of_no_key lib u hk
  have hf : u.failing lib = true := by
    unfold GnmiUpdate.failing
    rw [hx]
  have hs := processUpdates_stops_at_failing lib pre post u w hm hf
  unfold processResponse
  rw [hu]
  refine ⟨hx, hs.1, hs.2, ?_⟩
  intro hpre
  simp only at hpre
  rw [processUpdates_append]
  rcases h : processUpdates lib pre w with ⟨w1, r⟩
  rw [h] at hpre
  simp only at hpre
  subst hpre
  show (processUpdates lib (u :: post) w1).2 = _
  rw [processUpdates_cons_failing lib u post w1 hm hf]
  unfold GnmiUpdate.failure
  rw [hx]
  rfl

set_option maxRecDepth 100000 in
/-- C8 at the response whose updates are the update of the source, an update without
counters, and the update of the source again. -/
theorem processResponse_stops_at_missing_counters_witness :
    responseMissingCounters.Updates = [sampleUpdate] ++ updateWithoutCounters :: [sampleUpdate] ∧
    Contains updateWithoutCounters.Path (lit "/state/counters") = true ∧
    updateWithoutCounters.Values (lit "interfaces/interface/state/counters") = none ∧
    (extractCounters sampleCodec updateWithoutCounters
        = .error (lit "no counters found in update") ∧
      (∃ err, (processResponse sampleCodec responseMissingCounters World.empty).2
        = .returned (some err)) ∧
      (processResponse sampleCodec responseMissingCounters World.empty).1
        = (processResponse sampleCodec
            { responseMissingCounters with Updates := [sampleUpdate] } World.empty).1 ∧
      ((processResponse sampleCodec
            { responseMissingCounters with Updates := [sampleUpdate] } World.empty).2
          = .returned none →
        (processResponse sampleCodec responseMissingCounters World.empty).2
          = .returned (some (lit "extracting counters: no counters found in update")))) :=
  ⟨rfl, by decide, rfl,
    processResponse_stops_at_missing_counters sampleCodec responseMissingCounters
      [sampleUpdate] [sampleUpdate] updateWithoutCounters World.empty rfl (by decide) rfl⟩

set_option maxRecDepth 100000 in
/-- C8 fails as stated: in the response made of an update without the counters key followed
by the valid update of the source, processResponse returns the extraction error and writes
nothing, although the response of the source, which holds that valid update alone, writes
its three lines. -/
theorem processResponse_sibling_not_processed :
    processResponse sampleCodec responseMissingCountersFirst World.empty
      = (World.empty,
         .returned (some (lit "extracting counters: no counters found in update"))) ∧
    processResponse sampleCodec sampleResponse World.empty
      = (World.mk
            [lit "<http://example.net/interfaces/Ethernet8> <http://www.w3.org/1999/02/22-rdf-syntax-ns#type> <http://openconfig.net/rdf/Interface> .\n",
             lit "<http://example.net/interfaces/Ethernet8> <http://openconfig.net/rdf/inOctets> \"25833637\"^^<http://www.w3.org/2001/XMLSchema#integer> .\n",
             lit "<http://example.net/interfaces/Ethernet8> <http://openconfig.net/rdf/inBroadcastPkts> \"2367884\"^^<http://www.w3.org/2001/XMLSchema#integer> .\n"]
            [],
         .returned none) :=
  ⟨rfl, rfl⟩

/-- C10: an update whose path contains `/state/counters` but no `[name=` marker is rejected
with an error: for every response that contains such an update, processResponse returns an
error, and what it has written is what the updates before that one wrote, so that nothing
is written for that update. -/
theorem processResponse_rejects_update_without_name {V : Type} (lib : Codec V)
    (resp : GnmiResponse V) (pre post : List (GnmiUpdate V)) (u : GnmiUpdate V) (w : World)
    (hu : resp.Updates = pre ++ u :: post)
    (hm : Contains u.Path (lit "/state/counters") = true)
    (hn : Contains u.Path (lit "[name=") = false) :
    (∃ err, (processResponse lib resp w).2 = .returned (some err)) ∧
    (processResponse lib resp w).1
      = (processResponse lib { resp with Updates := pre } w).1 := by
  unfold processResponse
  rw [hu]
  exact processUpdates_stops_at_failing lib pre post u w hm (failing_of_no_marker lib u hn)

set_option maxRecDepth 100000 in
/-- C10 at the response whose updates are the update of the source, an update whose path
has no name, and the update of the source again. -/
theorem processResponse_rejects_update_without_name_witness :
    responseMissingName.Updates = [sampleUpdate] ++ updateWithoutName :: [sampleUpdate] ∧
    Contains updateWithoutName.Path (lit "/state/counters") = true ∧
    Contains updateWithoutName.Path (lit "[name=") = false ∧
    (∃ err, (processResponse sampleCodec responseMissingName World.empty).2
      = .returned (some err)) ∧
    (processResponse sampleCodec responseMissingName World.empty).1
      = (processResponse sampleCodec
          { responseMissingName with Updates := [sampleUpdate] } World.empty).1 :=
  ⟨rfl, by decide, by decide,
    processResponse_rejects_update_without_name sampleCodec responseMissingName
      [sampleUpdate] [sampleUpdate] updateWithoutName World.empty rfl (by decide)
      (by decide)⟩

set_option maxRecDepth 100000 in
/-- The run of main on the JSON text of the source, with the library functions as they
behave on it: three writes to standard output, none to standard error. -/
theorem main_on_source :
    main sampleCodec World.empty
      = (World.mk
            [lit "<http://example.net/interfaces/Ethernet8> <http://www.w3.org/1999/02/22-rdf-syntax-ns#type> <http://openconfig.net/rdf/Interface> .\n",
             lit "<http://example.net/interfaces/Ethernet8> <http://openconfig.net/rdf/inOctets> \"25833637\"^^<http://www.w3.org/2001/XMLSchema#integer> .\n",
             lit "<http://example.net/interfaces/Ethernet8> <http://openconfig.net/rdf/inBroadcastPkts> \"2367884\"^^<http://www.w3.org/2001/XMLSchema#integer> .\n"]
            [],
         .returned ()) := by
  rfl

/-! ## Counting the rdf:type triples -/

theorem printTriples_stdout (triples : List GoString) :
    ∀ (w : World), (printTriples triples w).stdout
      = w.stdout ++ triples.map (fun line => line ++ lit "\n") := by
  unfold printTriples
  induction triples with
  | nil => intro w; simp
  | cons t ts ih =>
    intro w
    rw [List.foldl_cons, ih]
    simp [Println]

theorem printTriples_stderr (triples : List GoString) :
    ∀ (w : World), (printTriples triples w).stderr = w.stderr := by
  unfold printTriples
  induction triples with
  | nil => intro w; rfl
  | cons t ts ih =>
    intro w
    rw [List.foldl_cons, ih]
    rfl

set_option maxRecDepth 8000 in
/-- The write of an rdf:type line is recognised. -/
theorem isTypeTripleWrite_typeLine (n : GoString) :
    isTypeTripleWrite (lit "<http://example.net/interfaces/" ++ (n
      ++ (lit "> <http://www.w3.org/1999/02/22-rdf-syntax-ns#type> <http://openconfig.net/rdf/Interface> ."
      ++ lit "\n"))) = true := by
  have hs : lit "> <http://www.w3.org/1999/02/22-rdf-syntax-ns#type> <http://openconfig.net/rdf/Interface> .\n"
      = lit "> <http://www.w3.org/1999/02/22-rdf-syntax-ns#type> <http://openconfig.net/rdf/Interface> ."
        ++ lit "\n" := by decide
  unfold isTypeTripleWrite
  rw [Bool.and_eq_true, List.isPrefixOf_iff_prefix, List.isSuffixOf_iff_suffix, hs]
  exact ⟨List.prefix_append _ _, lit "<http://example.net/interfaces/" ++ n, by simp⟩

set_option maxRecDepth 8000 in
/-- The write of a text that ends like a counter line is not taken for an rdf:type line. -/
theorem isTypeTripleWrite_integer (x : GoString) :
    isTypeTripleWrite (x ++ (lit "\"^^<http://www.w3.org/2001/XMLSchema#integer> ."
      ++ lit "\n")) = false := by
  unfold isTypeTripleWrite
  rw [Bool.and_eq_false_iff]
  right
  rw [← Bool.not_eq_true, List.isSuffixOf_iff_suffix]
  intro h
  have h2 : lit "\"^^<http://www.w3.org/2001/XMLSchema#integer> ." ++ lit "\n"
      <:+ x ++ (lit "\"^^<http://www.w3.org/2001/XMLSchema#integer> ." ++ lit "\n") :=
    List.suffix_append _ _
  have h3 := List.suffix_of_suffix_length_le h2 h (by decide)
  rw [← List.isSuffixOf_iff_suffix] at h3
  revert h3
  decide

/-- The write of a counter line is not taken for an rdf:type line. -/
theorem isTypeTripleWrite_counterLine (a b c d : GoString) :
    isTypeTripleWrite (a ++ (b ++ (c ++ (d
      ++ (lit "\"^^<http://www.w3.org/2001/XMLSchema#integer> ." ++ lit "\n"))))) = false := by
  have := isTypeTripleWrite_integer (a ++ b ++ c ++ d)
  simpa only [List.append_assoc] using this

set_option maxRecDepth 8000 in
/-- The report of a failed response is not taken for an rdf:type line. -/
theorem isTypeTripleWrite_report (source err : GoString) :
    isTypeTripleWrite (Sprintf (lit "Failed to process response from %s: %v\n")
      [.str source, .err err]) = false := by
  rfl

/-- Writing the triples of a matching update that does not fail adds one rdf:type triple. -/
theorem typeTriplesWritten_printTriples {V : Type} (lib : Codec V) (u : GnmiUpdate V)
    (hf : u.failing lib = false) (w : World) :
    typeTriplesWritten (printTriples (u.triples lib) w) = typeTriplesWritten w + 1 := by
  obtain ⟨name, c, _, _, _, ht⟩ := triples_of_not_failing lib u hf
  rw [toNTriples_newInterface] at ht
  injection ht with ht
  unfold typeTriplesWritten
  rw [printTriples_stdout, ← ht]
  rcases c.InOctets with _ | a <;> rcases c.InBroadcastPkts with _ | b <;>
    simp [List.countP_cons, isTypeTripleWrite_typeLine, isTypeTripleWrite_counterLine]

/-- The loop over the updates of a response adds one rdf:type triple for each matching
update that comes before the first failing one. -/
theorem typeTriplesWritten_processUpdates {V : Type} (lib : Codec V) :
    ∀ (us : List (GnmiUpdate V)) (w : World),
      typeTriplesWritten (processUpdates lib us w).1 = typeTriplesWritten w +
        ((us.filter GnmiUpdate.matching).takeWhile (fun u => !u.failing lib)).length
  | [], w => by simp [processUpdates]
  | u :: rest, w => by
    cases hm : u.matching with
    | false =>
      rw [processUpdates_cons_skip lib u rest w hm, List.filter_cons_of_neg (by simp [hm])]
      exact typeTriplesWritten_processUpdates lib rest w
    | true =>
      rw [List.filter_cons_of_pos hm]
      cases hf : u.failing lib with
      | true =>
        rw [processUpdates_cons_failing lib u rest w hm hf,
          List.takeWhile_cons_of_neg (by simp [hf])]
        simp
      | false =>
        rw [processUpdates_cons_ok lib u rest w hm hf,
          List.takeWhile_cons_of_pos (by simp [hf]),
          typeTriplesWritten_processUpdates lib rest _,
          typeTriplesWritten_printTriples lib u hf]
        simp only [List.length_cons]
        omega

/-- The loop of main adds, for each response, one rdf:type triple for each of its processed
updates; the reports of failed responses add none. -/
theorem typeTriplesWritten_processResponses {V : Type} (lib : Codec V) :
    ∀ (responses : List (GnmiResponse V)) (w : World),
      typeTriplesWritten (processResponses lib responses w).1 = typeTriplesWritten w +
        (responses.map (fun resp => (resp.processed lib).length)).sum
  | [], w => by simp [processResponses]
  | resp :: rest, w => by
    have hp := processUpdates_not_panicked lib resp.Updates w
    have hc := typeTriplesWritten_processUpdates lib resp.Updates w
    rw [processResponses]
    unfold processResponse
    rcases h : processUpdates lib resp.Updates w with ⟨w1, (_ | err) | _⟩
    · rw [h] at hc
      simp only at hc ⊢
      rw [typeTriplesWritten_processResponses lib rest w1, hc]
      simp only [List.map_cons, List.sum_cons, GnmiResponse.processed]
      omega
    · rw [h] at hc
      simp only at hc ⊢
      rw [typeTriplesWritten_processResponses lib rest _]
      have : typeTriplesWritten (Printf (lit "Failed to process response from %s: %v\n")
          [.str resp.Source, .err err] w1) = typeTriplesWritten w1 := by
        unfold typeTriplesWritten Printf
        simp [List.countP_append, List.countP_cons, isTypeTripleWrite_report]
      rw [this, hc]
      simp only [List.map_cons, List.sum_cons, GnmiResponse.processed]
      omega
    · simp [h] at hp

/-- C9, as the code has it: for every list of responses, the number of rdf:type triples
that the run writes equals the number, over all responses, of the processed updates: the
updates whose path contains `/state/counters` and that come before the first such update
of their response for which counter extraction fails or the resolved interface name is
empty (all such updates of a response in which none fails). -/
theorem typeTriples_count_processed {V : Type} (lib : Codec V)
    (responses : List (GnmiResponse V)) (w : World) :
    typeTriplesWritten (processResponses lib responses w).1
      = typeTriplesWritten w
        + (responses.map (fun resp => (resp.processed lib).length)).sum :=
  typeTriplesWritten_processResponses lib responses w

set_option maxRecDepth 100000 in
/-- C9 fails as stated: for the single response whose single update has the path
`interfaces/interface[name=Ethernet1]/state/counters` and an empty value map, the run writes
no rdf:type triple, although one update has a path that contains `/state/counters` and a
name that resolves (to `Ethernet1`). -/
theorem typeTriples_count_not_resolved :
    typeTriplesWritten (processResponses sampleCodec [responseOnlyMissingCounters]
        World.empty).1 = 0 ∧
    ([responseOnlyMissingCounters].map (fun resp =>
        (resp.Updates.filter (fun u => u.matching && u.resolves)).length)).sum = 1 ∧
    parseInterfaceName updateWithoutCounters.Path = some (lit "Ethernet1") :=
  ⟨rfl, rfl, rfl⟩

/-! ## More on parseInterfaceName -/

/-- Before the first position of a one-byte string, the byte does not occur. -/
theorem not_mem_take_of_indexAux {a : UInt8} :
    ∀ {s : GoString} {e : Nat}, indexAux [a] s = some e → a ∉ s.take e
  | [], e, h => by simp
  | c :: cs, e, h => by
    unfold indexAux at h
    split at h
    · simp at h
      subst h
      simp
    · rename_i hp
      cases hcs : indexAux [a] cs with
      | none => simp [hcs] at h
      | some j =>
        have ih := not_mem_take_of_indexAux hcs
        simp [hcs] at h
        subst h
        have hne : a ≠ c := by
          intro hac
          apply hp
          subst hac
          simp [List.isPrefixOf]
        simp [List.take_succ_cons, hne, ih]

/-- A byte that does not occur in a string is not found in it. -/
theorem indexAux_of_not_mem {a : UInt8} :
    ∀ {s : GoString}, a ∉ s → indexAux [a] s = none
  | [], _ => by simp [indexAux]
  | c :: cs, h => by
    simp at h
    have ih := indexAux_of_not_mem (s := cs) h.2
    unfold indexAux
    have hp : ¬ (([a] : GoString).isPrefixOf (c :: cs) = true) := by
      simp [List.isPrefixOf, h.1]
    rw [if_neg hp, ih]
    rfl

/-- The name found is a part of the path and has no `]`. -/
theorem parseInterfaceName_part_of_path (path : GoString) :
    ∃ name, parseInterfaceName path = some name ∧ name <:+: path ∧
      Contains name (lit "]") = false := by
  have hnil : Contains ([] : GoString) (lit "]") = false := by decide
  cases h : indexAux (lit "[name=") path with
  | none => exact ⟨_, parseInterfaceName_no_marker h, List.nil_infix, hnil⟩
  | some i =>
    cases h2 : indexAux (lit "]") (path.drop (i + 6)) with
    | none => exact ⟨_, parseInterfaceName_no_bracket h h2, List.nil_infix, hnil⟩
    | some e =>
      refine ⟨_, parseInterfaceName_found h h2, ?_, ?_⟩
      · exact List.IsInfix.trans (List.take_prefix _ _).isInfix (List.drop_suffix _ _).isInfix
      · rw [Contains_eq_false_iff, lit_bracket]
        rw [lit_bracket] at h2
        exact indexAux_of_not_mem (not_mem_take_of_indexAux h2)

/-- The indices of the slice expressions of parseInterfaceName are in range. -/
theorem nameStart_nameEnd_bounds (path : GoString) (h : Index path (lit "[name=") ≠ -1) :
    0 ≤ nameStart path ∧ nameStart path ≤ len path ∧
    (nameEnd path ≠ -1 →
      nameStart path ≤ nameStart path + nameEnd path ∧
      nameStart path + nameEnd path ≤ len path) := by
  unfold nameEnd nameStart
  cases h1 : indexAux (lit "[name=") path with
  | none => exact absurd (Index_of_none h1) h
  | some i =>
    have hb := indexAux_bound h1
    have hlen : (lit "[name=").length = 6 := by decide
    have hcast : (i : Int) + 6 = ((i + 6 : Nat) : Int) := by push_cast; rfl
    rw [Index_of_some h1, len_namePrefix, hcast]
    simp only [Int.toNat_ofNat]
    refine ⟨by omega, by unfold len; omega, ?_⟩
    intro he
    cases h2 : indexAux (lit "]") (path.drop (i + 6)) with
    | none => exact absurd (Index_of_none h2) he
    | some e =>
      have hb2 := indexAux_bound h2
      have hlen2 : (lit "]").length = 1 := by decide
      rw [List.length_drop] at hb2
      rw [Index_of_some h2]
      unfold len
      omega

/-- C18: for every path that contains the marker `[name=` and has no `]` after the first
occurrence of the marker, parseInterfaceName returns the empty string. The path is written
`p ++ "[name=" ++ t`, where `p` does not contain the marker (so the occurrence is the first
one) and `t` does not contain `]`. -/
theorem parseInterfaceName_unterminated (p t : GoString)
    (hp : Contains p (lit "[name=") = false) (ht : Contains t (lit "]") = false) :
    parseInterfaceName (p ++ lit "[name=" ++ t) = some (lit "") := by
  rw [Contains_eq_false_iff] at hp ht
  have h1 : indexAux (lit "[name=") (p ++ lit "[name=" ++ t) = some p.length := by
    have := indexAux_append_marker (a := 91) (t := [110, 97, 109, 101, 61]) (by decide)
      t p (by rw [← lit_namePrefix]; exact hp)
    rw [← lit_namePrefix] at this
    exact this
  have hdrop : (p ++ lit "[name=" ++ t).drop (p.length + 6) = t := by
    have hlen : (p ++ lit "[name=").length = p.length + 6 := by
      rw [List.length_append]; rfl
    rw [← hlen, List.drop_left]
  have h2 : indexAux (lit "]") ((p ++ lit "[name=" ++ t).drop (p.length + 6)) = none := by
    rw [hdrop]; exact ht
  rw [parseInterfaceName_no_bracket h1 h2, lit_empty]

/-- C18 at the path `interfaces/interface[name=Ethernet8/state/counters`. -/
theorem parseInterfaceName_unterminated_witness :
    Contains (lit "interfaces/interface") (lit "[name=") = false ∧
    Contains (lit "Ethernet8/state/counters") (lit "]") = false ∧
    parseInterfaceName (lit "interfaces/interface" ++ lit "[name="
      ++ lit "Ethernet8/state/counters") = some (lit "") :=
  ⟨by decide, by decide,
    parseInterfaceName_unterminated (lit "interfaces/interface")
      (lit "Ethernet8/state/counters") (by decide) (by decide)⟩

/-- C19: parseInterfaceName is total and its slice expressions are in range. For every
path the call returns (no slice panics), the result is a contiguous part of the path and
contains no `]`; and when the marker is found, `0 <= start <= len(path)`, and when `]` is
found after it, `start <= start+end <= len(path)`. -/
theorem parseInterfaceName_in_bounds (path : GoString) :
    (∃ name, parseInterfaceName path = some name ∧ name <:+: path ∧
      Contains name (lit "]") = false) ∧
    (Index path (lit "[name=") ≠ -1 →
      0 ≤ nameStart path ∧ nameStart path ≤ len path ∧
      (nameEnd path ≠ -1 →
        nameStart path ≤ nameStart path + nameEnd path ∧
        nameStart path + nameEnd path ≤ len path)) :=
  ⟨parseInterfaceName_part_of_path path, nameStart_nameEnd_bounds path⟩

/-- C19 at a path with two markers, `a[name=b]c[name=d]`: the marker and the bracket are
found, `start = 7` and `start + end = 8`, within the length 18, and the result is `b`. -/
theorem parseInterfaceName_in_bounds_witness :
    Index (lit "a[name=b]c[name=d]") (lit "[name=") ≠ -1 ∧
    nameEnd (lit "a[name=b]c[name=d]") ≠ -1 ∧
    nameStart (lit "a[name=b]c[name=d]") = 7 ∧
    nameEnd (lit "a[name=b]c[name=d]") = 1 ∧
    len (lit "a[name=b]c[name=d]") = 18 ∧
    parseInterfaceName (lit "a[name=b]c[name=d]") = some (lit "b") ∧
    (nameStart (lit "a[name=b]c[name=d]")
        ≤ nameStart (lit "a[name=b]c[name=d]") + nameEnd (lit "a[name=b]c[name=d]") ∧
      nameStart (lit "a[name=b]c[name=d]") + nameEnd (lit "a[name=b]c[name=d]")
        ≤ len (lit "a[name=b]c[name=d]")) :=
  ⟨by decide, by decide, by decide, by decide, by decide, by decide,
    ((parseInterfaceName_in_bounds (lit "a[name=b]c[name=d]")).2 (by decide)).2.2
      (by decide)⟩

/-- The empty path, a path that ends with the marker, a path with an empty name and a path
with several markers. -/
theorem parseInterfaceName_edge_cases :
    parseInterfaceName (lit "") = some (lit "") ∧
    parseInterfaceName (lit "interfaces/interface[name=") = some (lit "") ∧
    parseInterfaceName (lit "interfaces/interface[name=]/state/counters") = some (lit "") ∧
    parseInterfaceName (lit "a[name=b]c[name=d]") = some (lit "b") := by
  decide

/-! ## Claims on extractCounters and on the counters that toNTriples reads -/

/-- C12: for every update whose value map has no entry under the key
`interfaces/interface/state/counters`, whatever its other entries, extractCounters returns
the error "no counters found in update" and no counter record. -/
theorem extractCounters_missing_key {V : Type} (lib : Codec V) (u : GnmiUpdate V)
    (hk : u.Values (lit "interfaces/interface/state/counters") = none) :
    extractCounters lib u = .error (lit "no counters found in update") :=
  extractCounters_of_no_key lib u hk

/-- C12 at an update whose value map holds the counters object under another key. -/
theorem extractCounters_missing_key_witness :
    updateOtherKey.Values (lit "interfaces/interface/state/counters") = none ∧
    updateOtherKey.Values (lit "interfaces/interface/state") = some .counters ∧
    extractCounters sampleCodec updateOtherKey
      = .error (lit "no counters found in update") :=
  ⟨by decide, by decide, extractCounters_missing_key sampleCodec updateOtherKey (by decide)⟩

/-- C16: counters other than the two emitted are ignored. For every interface name and
every two counter records that agree on inOctets and on inBroadcastPkts (presence and
value), toNTriples returns the same result. -/
theorem toNTriples_ignores_other_counters (n : GoString) (c1 c2 : Counters)
    (hO : c1.InOctets = c2.InOctets) (hB : c1.InBroadcastPkts = c2.InBroadcastPkts) :
    toNTriples (newInterface n (some c1)) = toNTriples (newInterface n (some c2)) := by
  rw [toNTriples_newInterface, toNTriples_newInterface, hO, hB]

/-- C16 at the counter record of the source and the record that keeps only its two emitted
counters. -/
theorem toNTriples_ignores_other_counters_witness :
    sampleCounters.InOctets = sampleCountersTwoOnly.InOctets ∧
    sampleCounters.InBroadcastPkts = sampleCountersTwoOnly.InBroadcastPkts ∧
    sampleCounters ≠ sampleCountersTwoOnly ∧
    toNTriples (newInterface (lit "Ethernet8") (some sampleCounters))
      = toNTriples (newInterface (lit "Ethernet8") (some sampleCountersTwoOnly)) :=
  ⟨rfl, rfl, by decide,
    toNTriples_ignores_other_counters (lit "Ethernet8") sampleCounters sampleCountersTwoOnly
      rfl rfl⟩

/-! ## What processResponse writes and returns -/

/-- Removing the updates that are passed over does not change the loop. -/
theorem processUpdates_filter {V : Type} (lib : Codec V) :
    ∀ (us : List (GnmiUpdate V)) (w : World),
      processUpdates lib (us.filter GnmiUpdate.matching) w = processUpdates lib us w
  | [], _ => rfl
  | u :: rest, w => by
    cases hm : u.matching with
    | false =>
      rw [List.filter_cons_of_neg (by simp [hm]), processUpdates_cons_skip lib u rest w hm]
      exact processUpdates_filter lib rest w
    | true =>
      rw [List.filter_cons_of_pos hm]
      cases hf : u.failing lib with
      | true =>
        rw [processUpdates_cons_failing lib u _ w hm hf,
          processUpdates_cons_failing lib u _ w hm hf]
      | false =>
        rw [processUpdates_cons_ok lib u _ w hm hf, processUpdates_cons_ok lib u _ w hm hf]
        exact processUpdates_filter lib rest _

/-- Writing triples adds their lines to standard output and leaves standard error. -/
theorem printTriples_eq (triples : List GoString) (w : World) :
    printTriples triples w
      = World.mk (w.stdout ++ triples.map (fun line => line ++ lit "\n")) w.stderr := by
  have h1 := printTriples_stdout triples w
  have h2 := printTriples_stderr triples w
  rcases h : printTriples triples w with ⟨out, err⟩
  rw [h] at h1 h2
  simp only at h1 h2
  rw [h1, h2]

/-- The output of the loop: the lines of the triples of the matching updates that come
before the first failing one; standard error is left as it is. -/
theorem processUpdates_world {V : Type} (lib : Codec V) :
    ∀ (us : List (GnmiUpdate V)) (w : World),
      (processUpdates lib us w).1 = World.mk
        (w.stdout ++ ((us.filter GnmiUpdate.matching).takeWhile
          (fun u => !u.failing lib)).flatMap
            (fun u => (u.triples lib).map (fun line => line ++ lit "\n")))
        w.stderr
  | [], w => by simp [processUpdates]
  | u :: rest, w => by
    cases hm : u.matching with
    | false =>
      rw [processUpdates_cons_skip lib u rest w hm, List.filter_cons_of_neg (by simp [hm])]
      exact processUpdates_world lib rest w
    | true =>
      rw [List.filter_cons_of_pos hm]
      cases hf : u.failing lib with
      | true =>
        rw [processUpdates_cons_failing lib u rest w hm hf,
          List.takeWhile_cons_of_neg (by simp [hf])]
        simp
      | false =>
        rw [processUpdates_cons_ok lib u rest w hm hf,
          List.takeWhile_cons_of_pos (by simp [hf]),
          processUpdates_world lib rest _, printTriples_eq]
        simp

/-- The loop returns an error exactly when some matching update fails. -/
theorem processUpdates_error_iff {V : Type} (lib : Codec V) :
    ∀ (us : List (GnmiUpdate V)) (w : World),
      (∃ err, (processUpdates lib us w).2 = .returned (some err)) ↔
        ∃ u ∈ us, u.matching = true ∧ u.failing lib = true
  | [], w => by simp [processUpdates]
  | u :: rest, w => by
    cases hm : u.matching with
    | false =>
      rw [processUpdates_cons_skip lib u rest w hm, processUpdates_error_iff lib rest w]
      simp [hm]
    | true =>
      cases hf : u.failing lib with
      | true =>
        rw [processUpdates_cons_failing lib u rest w hm hf]
        simp [hm, hf]
      | false =>
        rw [processUpdates_cons_ok lib u rest w hm hf, processUpdates_error_iff lib rest _]
        simp [hf]

/-- The loop returns no error exactly when no matching update fails. -/
theorem processUpdates_ok_iff {V : Type} (lib : Codec V) (us : List (GnmiUpdate V))
    (w : World) :
    (processUpdates lib us w).2 = .returned none ↔
      ¬ ∃ u ∈ us, u.matching = true ∧ u.failing lib = true := by
  rw [← processUpdates_error_iff lib us w]
  have hp := processUpdates_not_panicked lib us w
  rcases h : (processUpdates lib us w).2 with (_ | err) | _
  · simp
  · simp
  · exact absurd h hp

/-- When a matching update fails. -/
theorem failing_iff {V : Type} (lib : Codec V) (u : GnmiUpdate V) :
    u.failing lib = true ↔
      (∃ err, extractCounters lib u = .error err) ∨
        parseInterfaceName u.Path = some (lit "") := by
  unfold GnmiUpdate.failing
  cases hx : extractCounters lib u with
  | error e => simp
  | ok c => simp

/-- The updates that are processed do not fail: each has a non-empty name and a counter
record, and its triples are the result of toNTriples for them. -/
theorem triples_of_processed {V : Type} (lib : Codec V) (resp : GnmiResponse V)
    (u : GnmiUpdate V) (hu : u ∈ resp.processed lib) :
    ∃ name counters, parseInterfaceName u.Path = some name ∧ name ≠ lit "" ∧
      extractCounters lib u = .ok counters ∧
      toNTriples (newInterface name (some counters)) = .ok (u.triples lib) := by
  unfold GnmiResponse.processed at hu
  have hf := List.mem_takeWhile_imp hu
  simp only [Bool.not_eq_true'] at hf
  obtain ⟨name, c, hne, hname, hx, ht⟩ := triples_of_not_failing lib u hf
  exact ⟨name, c, hname, hne, hx, ht⟩

/-- The processed updates are updates of the response. -/
theorem mem_of_processed {V : Type} (lib : Codec V) (resp : GnmiResponse V)
    (u : GnmiUpdate V) (hu : u ∈ resp.processed lib) : u ∈ resp.Updates := by
  unfold GnmiResponse.processed at hu
  exact List.mem_of_mem_filter ((List.takeWhile_prefix _).subset hu)

/-- The world after processResponse. -/
theorem processResponse_world {V : Type} (lib : Codec V) (resp : GnmiResponse V)
    (w : World) :
    (processResponse lib resp w).1 = World.mk (w.stdout ++ resp.emitted lib) w.stderr :=
  processUpdates_world lib resp.Updates w

/-- C11: updates whose path does not contain `/state/counters` are skipped without error
and without output. For every response, processResponse gives the same result and the same
output as on the response from which these updates are removed; and a response without any
matching update returns no error and writes nothing. -/
theorem processResponse_skips_other_paths {V : Type} (lib : Codec V)
    (resp : GnmiResponse V) (w : World) :
    processResponse lib resp w
      = processResponse lib
          { resp with Updates :=
              resp.Updates.filter (fun u => Contains u.Path (lit "/state/counters")) } w ∧
    ((∀ u ∈ resp.Updates, Contains u.Path (lit "/state/counters") = false) →
      processResponse lib resp w = (w, .returned none)) := by
  have hfun : (fun u : GnmiUpdate V => Contains u.Path (lit "/state/counters"))
      = GnmiUpdate.matching := rfl
  have h1 := processUpdates_filter lib resp.Updates w
  unfold processResponse
  simp only [hfun]
  refine ⟨h1.symm, ?_⟩
  intro h
  have hnil : resp.Updates.filter GnmiUpdate.matching = [] := by
    rw [List.filter_eq_nil_iff]
    intro u hu
    have := h u hu
    simp [GnmiUpdate.matching, this]
  rw [← h1, hnil]
  rfl

set_option maxRecDepth 100000 in
/-- C11 at a response made of two updates of another subtree. -/
theorem processResponse_skips_other_paths_witness :
    (∀ u ∈ responseOtherPaths.Updates, Contains u.Path (lit "/state/counters") = false) ∧
    processResponse sampleCodec responseOtherPaths World.empty
      = (World.empty, .returned none) :=
  ⟨by decide,
    (processResponse_skips_other_paths sampleCodec responseOtherPaths World.empty).2
      (by decide)⟩

/-- C17: processResponse stops at the first failing update. A matching update fails when
counter extraction fails or its resolved interface name is empty. processResponse returns
an error if and only if the response has a failing matching update, and returns no error
otherwise; what it writes is the lines of the triples of the processed updates, that is the
matching updates before the first failing one, in order; the triples of a processed update
are the result of toNTriples for its resolved name and its counter record. -/
theorem processResponse_stops_at_first_failure {V : Type} (lib : Codec V)
    (resp : GnmiResponse V) (w : World) :
    ((∃ err, (processResponse lib resp w).2 = .returned (some err)) ↔
      ∃ u ∈ resp.Updates, Contains u.Path (lit "/state/counters") = true ∧
        ((∃ err, extractCounters lib u = .error err) ∨
          parseInterfaceName u.Path = some (lit ""))) ∧
    ((processResponse lib resp w).2 = .returned none ↔
      ¬ ∃ u ∈ resp.Updates, Contains u.Path (lit "/state/counters") = true ∧
        ((∃ err, extractCounters lib u = .error err) ∨
          parseInterfaceName u.Path = some (lit ""))) ∧
    (processResponse lib resp w).1
      = World.mk
          (w.stdout ++
            ((resp.Updates.filter (fun u => Contains u.Path (lit "/state/counters"))).takeWhile
              (fun u => !u.failing lib)).flatMap
                (fun u => (u.triples lib).map (fun line => line ++ lit "\n")))
          w.stderr ∧
    (∀ u ∈ (resp.Updates.filter (fun u => Contains u.Path (lit "/state/counters"))).takeWhile
        (fun u => !u.failing lib),
      ∃ name counters, parseInterfaceName u.Path = some name ∧ name ≠ lit "" ∧
        extractCounters lib u = .ok counters ∧
        toNTriples (newInterface name (some counters)) = .ok (u.triples lib)) := by
  have he := processUpdates_error_iff lib resp.Updates w
  have ho := processUpdates_ok_iff lib resp.Updates w
  simp only [failing_iff, GnmiUpdate.matching] at he ho
  exact ⟨he, ho, processUpdates_world lib resp.Updates w,
    fun u hu => triples_of_processed lib resp u hu⟩

set_option maxRecDepth 100000 in
/-- C17 at the response whose updates are the update of the source, an update whose path
has no name, and the update of the source again: only the first update is processed. -/
theorem processResponse_stops_at_first_failure_witness :
    updateWithoutName ∈ responseMissingName.Updates ∧
    Contains updateWithoutName.Path (lit "/state/counters") = true ∧
    parseInterfaceName updateWithoutName.Path = some (lit "") ∧
    (∃ err, (processResponse sampleCodec responseMissingName World.empty).2
      = .returned (some err)) ∧
    (processResponse sampleCodec responseMissingName World.empty).1
      = World.mk
          [lit "<http://example.net/interfaces/Ethernet8> <http://www.w3.org/1999/02/22-rdf-syntax-ns#type> <http://openconfig.net/rdf/Interface> .\n",
           lit "<http://example.net/interfaces/Ethernet8> <http://openconfig.net/rdf/inOctets> \"25833637\"^^<http://www.w3.org/2001/XMLSchema#integer> .\n",
           lit "<http://example.net/interfaces/Ethernet8> <http://openconfig.net/rdf/inBroadcastPkts> \"2367884\"^^<http://www.w3.org/2001/XMLSchema#integer> .\n"]
          [] :=
  ⟨List.mem_cons_of_mem _ (List.mem_cons_self _ _), by decide, by decide,
    (processResponse_stops_at_first_failure sampleCodec responseMissingName World.empty).1.mpr
      ⟨updateWithoutName, List.mem_cons_of_mem _ (List.mem_cons_self _ _), by decide,
        Or.inr (by decide)⟩,
    (processResponse_stops_at_first_failure sampleCodec responseMissingName
      World.empty).2.2.1.trans rfl⟩

/-! ## The form of the lines -/

set_option maxRecDepth 8000 in
/-- Every line that toNTriples returns for a named interface with a counter record is
`<http://example.net/interfaces/NAME> <predicate> object .`. -/
theorem toNTriples_line_form (n : GoString) (c : Counters) (triples : List GoString)
    (ht : toNTriples (newInterface n (some c)) = .ok triples) :
    ∀ line ∈ triples, ∃ predicate object,
      line = lit "<http://example.net/interfaces/" ++ n ++ lit "> <" ++ predicate
        ++ lit "> " ++ object ++ lit " ." := by
  have h1 : lit "> <http://www.w3.org/1999/02/22-rdf-syntax-ns#type> <http://openconfig.net/rdf/Interface> ."
      = lit "> <" ++ (lit "http://www.w3.org/1999/02/22-rdf-syntax-ns#type"
        ++ (lit "> " ++ (lit "<http://openconfig.net/rdf/Interface>" ++ lit " ."))) := by
    decide
  have h2 : lit "> <http://openconfig.net/rdf/inOctets> \""
      = lit "> <" ++ (lit "http://openconfig.net/rdf/inOctets" ++ (lit "> " ++ lit "\"")) := by
    decide
  have h3 : lit "> <http://openconfig.net/rdf/inBroadcastPkts> \""
      = lit "> <" ++ (lit "http://openconfig.net/rdf/inBroadcastPkts"
        ++ (lit "> " ++ lit "\"")) := by
    decide
  have h4 : lit "\"^^<http://www.w3.org/2001/XMLSchema#integer> ."
      = lit "\"^^<http://www.w3.org/2001/XMLSchema#integer>" ++ lit " ." := by
    decide
  rw [toNTriples_newInterface] at ht
  injection ht with ht
  intro line hl
  rw [← ht] at hl
  simp only [List.mem_append, List.mem_singleton] at hl
  rcases hl with (hl | hl) | hl
  · exact ⟨lit "http://www.w3.org/1999/02/22-rdf-syntax-ns#type",
      lit "<http://openconfig.net/rdf/Interface>", by
        rw [hl]; simp only [List.append_assoc]; rw [h1]⟩
  · rcases hO : c.InOctets with _ | a
    · simp [hO] at hl
    · simp only [hO, List.mem_singleton] at hl
      exact ⟨lit "http://openconfig.net/rdf/inOctets",
        lit "\"" ++ lit (Nat.repr a) ++ lit "\"^^<http://www.w3.org/2001/XMLSchema#integer>",
        by rw [hl]; simp only [List.append_assoc]; rw [h2, h4]; simp only [List.append_assoc]⟩
  · rcases hB : c.InBroadcastPkts with _ | b
    · simp [hB] at hl
    · simp only [hB, List.mem_singleton] at hl
      exact ⟨lit "http://openconfig.net/rdf/inBroadcastPkts",
        lit "\"" ++ lit (Nat.repr b) ++ lit "\"^^<http://www.w3.org/2001/XMLSchema#integer>",
        by rw [hl]; simp only [List.append_assoc]; rw [h3, h4]; simp only [List.append_assoc]⟩

/-- Every write of processResponse is a line of an update of the response whose resolved
name is not empty, and the line has that name in its subject. -/
theorem emitted_form {V : Type} (lib : Codec V) (resp : GnmiResponse V) :
    ∀ s ∈ resp.emitted lib, ∃ u ∈ resp.Updates, ∃ name,
      parseInterfaceName u.Path = some name ∧ name ≠ lit "" ∧
      ∃ predicate object,
        s = lit "<http://example.net/interfaces/" ++ name ++ lit "> <" ++ predicate
          ++ lit "> " ++ object ++ lit " ." ++ lit "\n" := by
  intro s hs
  unfold GnmiResponse.emitted at hs
  rw [List.mem_flatMap] at hs
  obtain ⟨u, hu, hs⟩ := hs
  rw [List.mem_map] at hs
  obtain ⟨line, hline, rfl⟩ := hs
  obtain ⟨name, c, hname, hne, _, ht⟩ := triples_of_processed lib resp u hu
  obtain ⟨predicate, object, hform⟩ := toNTriples_line_form name c _ ht line hline
  exact ⟨u, mem_of_processed lib resp u hu, name, hname, hne, predicate, object, by rw [hform]⟩

/-- A matching update whose resolved name is empty fails. -/
theorem failing_of_empty_name {V : Type} (lib : Codec V) (u : GnmiUpdate V)
    (hn : parseInterfaceName u.Path = some (lit "")) : u.failing lib = true :=
  (failing_iff lib u).mpr (Or.inr hn)

/-- Every line that toNTriples returns for a named interface with a counter record starts
with the subject of that name. -/
theorem toNTriples_line_subject (n : GoString) (c : Counters) (triples : List GoString)
    (ht : toNTriples (newInterface n (some c)) = .ok triples) :
    ∀ line ∈ triples, lit "<http://example.net/interfaces/" ++ n ++ lit "> " <+: line := by
  intro line hl
  obtain ⟨predicate, object, hform⟩ := toNTriples_line_form n c triples ht line hl
  have hsplit : lit "> <" = lit "> " ++ lit "<" := by decide
  rw [hform, hsplit]
  exact ⟨lit "<" ++ predicate ++ lit "> " ++ object ++ lit " .",
    by simp only [List.append_assoc]⟩

/-- C15: the interface name is not empty before a triple is emitted. What processResponse
writes is, update after update, the lines of the updates it processes (the matching updates
before the first failing one); the lines written for an update are the result of toNTriples
for the name that parseInterfaceName resolves from the path of that same update, this name
is not empty, and each of these lines starts with the subject
`<http://example.net/interfaces/N>` of that name `N`. And a matching update whose resolved
name is empty makes processResponse return an error, with nothing written for that update:
the output is that of the updates before it. -/
theorem processResponse_names_nonempty {V : Type} (lib : Codec V) (resp : GnmiResponse V)
    (w : World) :
    (processResponse lib resp w).1.stdout
      = w.stdout ++
          ((resp.Updates.filter (fun u => Contains u.Path (lit "/state/counters"))).takeWhile
            (fun u => !u.failing lib)).flatMap
              (fun u => (u.triples lib).map (fun line => line ++ lit "\n")) ∧
    (∀ u ∈ (resp.Updates.filter (fun u => Contains u.Path (lit "/state/counters"))).takeWhile
        (fun u => !u.failing lib),
      ∃ name counters, parseInterfaceName u.Path = some name ∧ name ≠ lit "" ∧
        extractCounters lib u = .ok counters ∧
        toNTriples (newInterface name (some counters)) = .ok (u.triples lib) ∧
        ∀ line ∈ u.triples lib,
          lit "<http://example.net/interfaces/" ++ name ++ lit "> " <+: line) ∧
    (∀ (pre post : List (GnmiUpdate V)) (u : GnmiUpdate V),
      resp.Updates = pre ++ u :: post →
      Contains u.Path (lit "/state/counters") = true →
      parseInterfaceName u.Path = some (lit "") →
      (∃ err, (processResponse lib resp w).2 = .returned (some err)) ∧
      (processResponse lib resp w).1
        = (processResponse lib { resp with Updates := pre } w).1) := by
  refine ⟨?_, ?_, ?_⟩
  · rw [processResponse_world]
    rfl
  · intro u hu
    obtain ⟨name, c, hname, hne, hx, ht⟩ := triples_of_processed lib resp u hu
    exact ⟨name, c, hname, hne, hx, ht, toNTriples_line_subject name c _ ht⟩
  · intro pre post u hu hm hn
    unfold processResponse
    rw [hu]
    exact processUpdates_stops_at_failing lib pre post u w hm (failing_of_empty_name lib u hn)

set_option maxRecDepth 100000 in
/-- C15 at two responses. In the response with the update of the source followed by the
update for `Ethernet1`, the three lines of each update have the name of that update. In the
response whose updates are the update of the source, an update with the path
`interfaces/interface[name=]/state/counters`, and the update of the source again, the call
returns an error and writes what the first update alone writes. -/
theorem processResponse_names_nonempty_witness :
    (processResponse sampleCodec responseTwoInterfaces World.empty).1.stdout
      = [lit "<http://example.net/interfaces/Ethernet8> <http://www.w3.org/1999/02/22-rdf-syntax-ns#type> <http://openconfig.net/rdf/Interface> .\n",
         lit "<http://example.net/interfaces/Ethernet8> <http://openconfig.net/rdf/inOctets> \"25833637\"^^<http://www.w3.org/2001/XMLSchema#integer> .\n",
         lit "<http://example.net/interfaces/Ethernet8> <http://openconfig.net/rdf/inBroadcastPkts> \"2367884\"^^<http://www.w3.org/2001/XMLSchema#integer> .\n",
         lit "<http://example.net/interfaces/Ethernet1> <http://www.w3.org/1999/02/22-rdf-syntax-ns#type> <http://openconfig.net/rdf/Interface> .\n",
         lit "<http://example.net/interfaces/Ethernet1> <http://openconfig.net/rdf/inOctets> \"25833637\"^^<http://www.w3.org/2001/XMLSchema#integer> .\n",
         lit "<http://example.net/interfaces/Ethernet1> <http://openconfig.net/rdf/inBroadcastPkts> \"2367884\"^^<http://www.w3.org/2001/XMLSchema#integer> .\n"] ∧
    responseEmptyName.Updates = [sampleUpdate] ++ updateWithEmptyName :: [sampleUpdate] ∧
    Contains updateWithEmptyName.Path (lit "/state/counters") = true ∧
    parseInterfaceName updateWithEmptyName.Path = some (lit "") ∧
    (∃ err, (processResponse sampleCodec responseEmptyName World.empty).2
      = .returned (some err)) ∧
    (processResponse sampleCodec responseEmptyName World.empty).1
      = (processResponse sampleCodec
          { responseEmptyName with Updates := [sampleUpdate] } World.empty).1 :=
  ⟨(processResponse_names_nonempty sampleCodec responseTwoInterfaces World.empty).1.trans rfl,
    rfl, by decide, by decide,
    (processResponse_names_nonempty sampleCodec responseEmptyName World.empty).2.2
      [sampleUpdate] [sampleUpdate] updateWithEmptyName rfl (by decide) (by decide)⟩

/-! ## The run of main -/

/-- The result of the loop of processResponse does not depend on what is already
written. -/
theorem processUpdates_result_indep {V : Type} (lib : Codec V) :
    ∀ (us : List (GnmiUpdate V)) (w w2 : World),
      (processUpdates lib us w).2 = (processUpdates lib us w2).2
  | [], _, _ => rfl
  | u :: rest, w, w2 => by
    cases hm : u.matching with
    | false =>
      rw [processUpdates_cons_skip lib u rest w hm, processUpdates_cons_skip lib u rest w2 hm]
      exact processUpdates_result_indep lib rest w w2
    | true =>
      cases hf : u.failing lib with
      | true =>
        rw [processUpdates_cons_failing lib u rest w hm hf,
          processUpdates_cons_failing lib u rest w2 hm hf]
      | false =>
        rw [processUpdates_cons_ok lib u rest w hm hf,
          processUpdates_cons_ok lib u rest w2 hm hf]
        exact processUpdates_result_indep lib rest _ _

set_option maxRecDepth 8000 in
/-- The text of the report of a failed response. -/
theorem Sprintf_report (source err : GoString) :
    Sprintf (lit "Failed to process response from %s: %v\n") [.str source, .err err]
      = lit "Failed to process response from " ++ source ++ lit ": " ++ err ++ lit "\n" := by
  have h : Sprintf (lit "Failed to process response from %s: %v\n") [.str source, .err err]
      = lit "Failed to process response from " ++ (source ++ (lit ": " ++ (err ++ lit "\n"))) :=
    rfl
  rw [h]
  simp only [List.append_assoc]

set_option maxRecDepth 8000 in
/-- The text of the report of a failed decoding. -/
theorem Sprintf_parse_report (err : GoString) :
    Sprintf (lit "Failed to parse gNMI JSON: %v\n") [.err err]
      = lit "Failed to parse gNMI JSON: " ++ err ++ lit "\n" := by
  have h : Sprintf (lit "Failed to parse gNMI JSON: %v\n") [.err err]
      = lit "Failed to parse gNMI JSON: " ++ (err ++ lit "\n") := rfl
  rw [h]
  simp only [List.append_assoc]

/-- The loop of main never panics; it writes, response after response, the lines of the
response and then its report if it failed, and it leaves standard error as it is. -/
theorem processResponses_world {V : Type} (lib : Codec V) :
    ∀ (responses : List (GnmiResponse V)) (w : World),
      processResponses lib responses w
        = (World.mk
            (w.stdout ++ responses.flatMap (fun resp => resp.emitted lib ++ resp.report lib))
            w.stderr,
           .returned ())
  | [], w => by simp [processResponses]
  | resp :: rest, w => by
    have hp := processUpdates_not_panicked lib resp.Updates w
    have hw := processResponse_world lib resp w
    have hr := processUpdates_result_indep lib resp.Updates w World.empty
    rw [processResponses]
    unfold processResponse at hw ⊢
    rcases h : processUpdates lib resp.Updates w with ⟨w1, (_ | err) | _⟩
    · rw [h] at hw hr
      simp only at hw hr ⊢
      rw [processResponses_world lib rest w1, hw]
      simp [GnmiResponse.report, processResponse, ← hr]
    · rw [h] at hw hr
      simp only at hw hr ⊢
      rw [processResponses_world lib rest _, hw]
      simp [GnmiResponse.report, processResponse, ← hr, Printf, Sprintf_report]
    · simp [h] at hp

/-- What a response writes when it is processed on its own. -/
theorem processResponse_alone {V : Type} (lib : Codec V) (resp : GnmiResponse V) :
    (processResponse lib resp World.empty).1.stdout = resp.emitted lib := by
  rw [processResponse_world]
  rfl

set_option maxRecDepth 8000 in
/-- The writes of processResponse start like the line of a triple. -/
theorem isTripleWrite_emitted {V : Type} (lib : Codec V) (resp : GnmiResponse V) :
    ∀ s ∈ resp.emitted lib, isTripleWrite s = true := by
  intro s hs
  obtain ⟨u, _, name, _, _, predicate, object, hform⟩ := emitted_form lib resp s hs
  unfold isTripleWrite
  rw [List.isPrefixOf_iff_prefix, hform]
  simp only [List.append_assoc]
  exact List.prefix_append _ _

set_option maxRecDepth 8000 in
/-- The report of a failed response does not start like the line of a triple. -/
theorem isTripleWrite_report {V : Type} (lib : Codec V) (resp : GnmiResponse V) :
    ∀ s ∈ resp.report lib, isTripleWrite s = false := by
  intro s hs
  unfold GnmiResponse.report at hs
  split at hs
  · rw [List.mem_singleton] at hs
    rw [hs]
    simp only [List.append_assoc]
    rfl
  · simp at hs

/-- Among the writes of the run, those that start like the line of a triple are the writes
of the responses. -/
theorem filter_isTripleWrite_run {V : Type} (lib : Codec V) :
    ∀ (responses : List (GnmiResponse V)),
      (responses.flatMap (fun resp => resp.emitted lib ++ resp.report lib)).filter
          isTripleWrite
        = responses.flatMap (fun resp => resp.emitted lib)
  | [] => rfl
  | resp :: rest => by
    have h1 : (resp.emitted lib).filter isTripleWrite = resp.emitted lib :=
      List.filter_eq_self.mpr (isTripleWrite_emitted lib resp)
    have h2 : (resp.report lib).filter isTripleWrite = [] :=
      List.filter_eq_nil_iff.mpr (fun s hs => by simp [isTripleWrite_report lib resp s hs])
    simp only [List.flatMap_cons, List.filter_append, h1, h2, List.append_nil,
      filter_isTripleWrite_run lib rest]

/-- C13: per-response errors never abort the run. For every list of responses the loop of
main ends normally; what it writes to standard output is, response after response, what
the response writes when processed on its own, followed by the report of the response if it
failed; so the lines of triples of the run are the concatenation, in response order, of the
lines each response emits when processed on its own. -/
theorem processResponses_concatenates {V : Type} (lib : Codec V)
    (responses : List (GnmiResponse V)) :
    (processResponses lib responses World.empty).2 = .returned () ∧
    (processResponses lib responses World.empty).1.stdout
      = responses.flatMap (fun resp =>
          (processResponse lib resp World.empty).1.stdout ++ resp.report lib) ∧
    (processResponses lib responses World.empty).1.stdout.filter isTripleWrite
      = responses.flatMap (fun resp => (processResponse lib resp World.empty).1.stdout) := by
  simp only [processResponse_alone]
  rw [processResponses_world]
  refine ⟨rfl, ?_, ?_⟩
  · show World.empty.stdout ++ _ = _
    rfl
  · show (World.empty.stdout ++ _).filter isTripleWrite = _
    exact filter_isTripleWrite_run lib responses

set_option maxRecDepth 100000 in
/-- A run in which the first response fails and the second does not: the report of the
first one is followed by the three lines of the second one. -/
theorem processResponses_after_failure :
    processResponses sampleCodec [responseMissingCountersFirst, sampleResponse] World.empty
      = (World.mk
          [lit "Failed to process response from 192.168.151.7:6030: extracting counters: no counters found in update\n",
           lit "<http://example.net/interfaces/Ethernet8> <http://www.w3.org/1999/02/22-rdf-syntax-ns#type> <http://openconfig.net/rdf/Interface> .\n",
           lit "<http://example.net/interfaces/Ethernet8> <http://openconfig.net/rdf/inOctets> \"25833637\"^^<http://www.w3.org/2001/XMLSchema#integer> .\n",
           lit "<http://example.net/interfaces/Ethernet8> <http://openconfig.net/rdf/inBroadcastPkts> \"2367884\"^^<http://www.w3.org/2001/XMLSchema#integer> .\n"]
          [],
         .returned ()) := by
  rfl

/-- Every write of the loop of main is the line of a statement or the report of a failed
response. -/
theorem run_writes_form {V : Type} (lib : Codec V) (responses : List (GnmiResponse V)) :
    ∀ s ∈ responses.flatMap (fun resp => resp.emitted lib ++ resp.report lib),
      (∃ line, s = line ++ lit "\n" ∧ IsStatement line) ∨ IsFailureMessage s := by
  intro s hs
  rw [List.mem_flatMap] at hs
  obtain ⟨resp, _, hs⟩ := hs
  rw [List.mem_append] at hs
  rcases hs with hs | hs
  · left
    obtain ⟨u, _, name, _, _, predicate, object, hform⟩ := emitted_form lib resp s hs
    have hsplit : lit "<http://example.net/interfaces/"
        = lit "<" ++ lit "http://example.net/interfaces/" := by decide
    refine ⟨_, hform, lit "http://example.net/interfaces/" ++ name, predicate, object, ?_⟩
    rw [hsplit]
    simp only [List.append_assoc]
  · right
    unfold GnmiResponse.report at hs
    split at hs
    · rw [List.mem_singleton] at hs
      exact Or.inr ⟨_, _, hs⟩
    · simp at hs

/-- The report of a response that fails is among the writes of the loop of main. -/
theorem report_mem_run {V : Type} (lib : Codec V) (responses : List (GnmiResponse V))
    (resp : GnmiResponse V) (hr : resp ∈ responses) (err : GoError)
    (he : (processResponse lib resp World.empty).2 = .returned (some err)) :
    lit "Failed to process response from " ++ resp.Source ++ lit ": " ++ err ++ lit "\n"
      ∈ responses.flatMap (fun resp => resp.emitted lib ++ resp.report lib) := by
  rw [List.mem_flatMap]
  refine ⟨resp, hr, List.mem_append_right _ ?_⟩
  unfold GnmiResponse.report
  rw [he]
  exact List.mem_singleton_self _

/-- C14, as the code has it: nothing is ever written to the error stream. Every write of
the run to standard output is either a line of the form `<subject> <predicate> object .` or
a failure message, and the failure messages are written to standard output: the message of
a failed decoding is the only write of the run, and the message of each response that fails
is among the writes of the run. -/
theorem mainOn_writes_to_stdout_only {V : Type} (lib : Codec V) (json : GoString)
    (w : World) :
    (mainOn lib json w).1.stderr = w.stderr ∧
    (∃ added, (mainOn lib json w).1.stdout = w.stdout ++ added ∧
      ∀ s ∈ added, (∃ line, s = line ++ lit "\n" ∧ IsStatement line) ∨ IsFailureMessage s) ∧
    (∀ err, parseGnmiJSON lib json = .error err →
      (mainOn lib json w).1.stdout
        = w.stdout ++ [lit "Failed to parse gNMI JSON: " ++ err ++ lit "\n"]) ∧
    (∀ responses, parseGnmiJSON lib json = .ok responses →
      ∀ resp ∈ responses, ∀ err,
        (processResponse lib resp World.empty).2 = .returned (some err) →
        lit "Failed to process response from " ++ resp.Source ++ lit ": " ++ err ++ lit "\n"
          ∈ (mainOn lib json w).1.stdout) := by
  unfold mainOn
  cases hp : parseGnmiJSON lib json with
  | error e =>
    simp only [Printf, Sprintf_parse_report]
    refine ⟨trivial, ⟨_, rfl, ?_⟩, ?_, ?_⟩
    · intro s hs
      rw [List.mem_singleton] at hs
      exact Or.inr (Or.inl ⟨e, hs⟩)
    · intro err herr
      injection herr with herr
      rw [herr]
    · intro responses hresp
      cases hresp
  | ok responses =>
    simp only [processResponses_world]
    refine ⟨trivial, ⟨_, rfl, run_writes_form lib responses⟩, ?_, ?_⟩
    · intro err herr
      cases herr
    · intro rs hrs resp hr err he
      injection hrs with hrs
      subst hrs
      exact List.mem_append_right _ (report_mem_run lib responses resp hr err he)

set_option maxRecDepth 100000 in
/-- C14 at the JSON text whose only update has an empty value map: the response fails and
its message is written to standard output. -/
theorem mainOn_writes_to_stdout_only_witness :
    parseGnmiJSON sampleCodecMissing missingCountersJSON = .ok [responseOnlyMissingCounters] ∧
    responseOnlyMissingCounters ∈ [responseOnlyMissingCounters] ∧
    (processResponse sampleCodecMissing responseOnlyMissingCounters World.empty).2
      = .returned (some (lit "extracting counters: no counters found in update")) ∧
    lit "Failed to process response from " ++ responseOnlyMissingCounters.Source ++ lit ": "
        ++ lit "extracting counters: no counters found in update" ++ lit "\n"
      ∈ (mainOn sampleCodecMissing missingCountersJSON World.empty).1.stdout :=
  ⟨rfl, List.mem_singleton_self _, rfl,
    (mainOn_writes_to_stdout_only sampleCodecMissing missingCountersJSON World.empty).2.2.2
      [responseOnlyMissingCounters] rfl responseOnlyMissingCounters
      (List.mem_singleton_self _) _ rfl⟩

set_option maxRecDepth 100000 in
/-- C14 fails as stated: on the JSON text whose only update has an empty value map, the
run writes the failure message of the response to standard output and nothing to the error
stream. -/
theorem failure_message_on_stdout :
    mainOn sampleCodecMissing missingCountersJSON World.empty
      = (World.mk
          [lit "Failed to process response from 192.168.151.7:6030: extracting counters: no counters found in update\n"]
          [],
         .returned ()) := by
  rfl

end Triples
